import Mathlib

/-!
Verification of the doublezero Python SDK binary decoding layer.

This file shallowly embeds the decoding substrate of the repository:

* `sdk/borsh-incremental/python/borsh_incremental/reader.py`
  (`IncrementalReader`, its `try_read` variants, and `DefensiveReader`),
* `sdk/serviceability/python/serviceability/state.py`
  (tagged-variant account decoders and the versioned `Interface` sub-record),
* `sdk/revdist/python/revdist/state.py`
  (fixed-layout record decoders with byte-coverage assertions),
* `smartcontract/sdk/python/serviceability_borsh.py`
  (the lenient construct-based batch path and its dispatch loop).

Bytes are modelled as `Fin 256`; buffers as lists of bytes.  A Python
reader object is a pair of the immutable buffer and a cursor offset.
A Python method that can raise is modelled as a function returning an
`Except` value paired with the post-call reader state (an exception in
Python leaves the reader object with whatever offset it had when the
raise happened).  Floating point fields (`f64`) are carried as their
little-endian 64-bit pattern; nothing in the claims depends on the IEEE
interpretation of those bits.  Strings are carried as their raw byte
lists; UTF-8 decoding is not modelled (no claim depends on it).
-/

namespace DZ

/-- A byte. -/
abbrev Byte := Fin 256

/-- A binary buffer: a finite immutable sequence of bytes. -/
abbrev Bytes := List Byte

/-- The slice `b[off : off+n]` of a buffer (shorter when the buffer ends). -/
def slice (b : Bytes) (off n : Nat) : Bytes := (b.drop off).take n

/-- Little-endian value of a byte sequence. -/
def leVal : Bytes → Nat
  | [] => 0
  | x :: xs => x.val + 256 * leVal xs

/-- State of an `IncrementalReader`: the buffer `_data` and cursor `_offset`. -/
structure RState where
  data : Bytes
  offset : Nat
deriving DecidableEq

/-- The `remaining` property: `len(self._data) - self._offset`. -/
def RState.remaining (s : RState) : Nat := s.data.length - s.offset

/-- Errors a decode can raise.  `insufficientData` stands for the
`ValueError("borsh: not enough data ...")` raises of the strict reader,
`valueError` for the `ValueError` raised by an `IntEnum` constructor on an
unknown value, `assertionFailure` for a failed byte-coverage `assert`,
`invalidDiscriminator` and `tooShort` for the two raises of the revdist
`_deserialize` helper. -/
inductive DecErr where
  | insufficientData (offset needed : Nat)
  | valueError
  | assertionFailure
  | invalidDiscriminator
  | tooShort
deriving DecidableEq

instance {ε α : Type} [DecidableEq ε] [DecidableEq α] : DecidableEq (Except ε α)
  | Except.ok a, Except.ok b =>
    if h : a = b then Decidable.isTrue (by rw [h])
    else Decidable.isFalse (fun hh => h (Except.ok.inj hh))
  | Except.ok _, Except.error _ => Decidable.isFalse (fun hh => Except.noConfusion hh)
  | Except.error _, Except.ok _ => Decidable.isFalse (fun hh => Except.noConfusion hh)
  | Except.error d, Except.error e =>
    if h : d = e then Decidable.isTrue (by rw [h])
    else Decidable.isFalse (fun hh => h (Except.error.inj hh))

/-- A decoding step: runs on a reader state, returns a value or an
exception, together with the reader state after the call. -/
def DecM (α : Type) := RState → Except DecErr α × RState

instance : Monad DecM where
  pure a := fun s => (Except.ok a, s)
  bind x f := fun s =>
    match x s with
    | (Except.ok a, s1) => f a s1
    | (Except.error e, s1) => (Except.error e, s1)

@[simp] theorem DecM.bind_apply {α β : Type} (x : DecM α) (f : α → DecM β) (s : RState) :
    (x >>= f) s =
      match x s with
      | (Except.ok a, s1) => f a s1
      | (Except.error e, s1) => (Except.error e, s1) := rfl

@[simp] theorem DecM.pure_apply {α : Type} (a : α) (s : RState) :
    (pure a : DecM α) s = (Except.ok a, s) := rfl

/-- Lift a pure `Except` computation (such as an enum constructor that can
raise) into a decoding step; it does not touch the reader. -/
def liftE {α : Type} (e : Except DecErr α) : DecM α := fun s => (e, s)

@[simp] theorem liftE_apply {α : Type} (e : Except DecErr α) (s : RState) :
    liftE e s = (e, s) := rfl

/-- Inversion for a successful bind: both halves succeeded. -/
theorem DecM.bind_ok {α β : Type} {x : DecM α} {f : α → DecM β} {s s2 : RState}
    {b : β} (h : (x >>= f) s = (Except.ok b, s2)) :
    ∃ a s1, x s = (Except.ok a, s1) ∧ f a s1 = (Except.ok b, s2) := by
  rw [DecM.bind_apply] at h
  rcases hx : x s with ⟨exc, s1⟩
  rw [hx] at h
  cases exc with
  | ok a => exact ⟨a, s1, rfl, h⟩
  | error e => simp at h

namespace IncrementalReader

/-! Strict read methods (raise on insufficient data), translated from
`borsh_incremental/reader.py`.  Each method checks
`self._offset + n > len(self._data)` and raises, leaving the offset
unchanged; otherwise it decodes little-endian from the slice and advances
the offset by exactly `n`. -/

/-- `read_u8`. -/
def read_u8 : DecM Nat := fun s =>
  if s.offset + 1 > s.data.length then
    (Except.error (DecErr.insufficientData s.offset 1), s)
  else
    (Except.ok (leVal (slice s.data s.offset 1)), { s with offset := s.offset + 1 })

/-- `read_bool`: `read_u8() != 0`. -/
def read_bool : DecM Bool :=
  read_u8 >>= fun v => pure (v != 0)

/-- `read_u16`. -/
def read_u16 : DecM Nat := fun s =>
  if s.offset + 2 > s.data.length then
    (Except.error (DecErr.insufficientData s.offset 2), s)
  else
    (Except.ok (leVal (slice s.data s.offset 2)), { s with offset := s.offset + 2 })

/-- `read_u32`. -/
def read_u32 : DecM Nat := fun s =>
  if s.offset + 4 > s.data.length then
    (Except.error (DecErr.insufficientData s.offset 4), s)
  else
    (Except.ok (leVal (slice s.data s.offset 4)), { s with offset := s.offset + 4 })

/-- `read_u64`. -/
def read_u64 : DecM Nat := fun s =>
  if s.offset + 8 > s.data.length then
    (Except.error (DecErr.insufficientData s.offset 8), s)
  else
    (Except.ok (leVal (slice s.data s.offset 8)), { s with offset := s.offset + 8 })

/-- `read_u128`: unpacks two little-endian u64 words from 16 bytes,
`low` first, and returns `low | (high << 64)`. -/
def read_u128 : DecM Nat := fun s =>
  if s.offset + 16 > s.data.length then
    (Except.error (DecErr.insufficientData s.offset 16), s)
  else
    (Except.ok
      (leVal (slice s.data s.offset 8) |||
        (leVal (slice s.data (s.offset + 8) 8) <<< 64)),
      { s with offset := s.offset + 16 })

/-- `read_f64`: modelled as the little-endian 64-bit pattern of the float. -/
def read_f64 : DecM Nat := fun s =>
  if s.offset + 8 > s.data.length then
    (Except.error (DecErr.insufficientData s.offset 8), s)
  else
    (Except.ok (leVal (slice s.data s.offset 8)), { s with offset := s.offset + 8 })

/-- `read_bytes(n)`. -/
def read_bytes (n : Nat) : DecM Bytes := fun s =>
  if s.offset + n > s.data.length then
    (Except.error (DecErr.insufficientData s.offset n), s)
  else
    (Except.ok (slice s.data s.offset n), { s with offset := s.offset + n })

/-- `read_pubkey_raw`: a 32-byte public key as raw bytes. -/
def read_pubkey_raw : DecM Bytes := read_bytes 32

/-- `read_ipv4`: 4 raw bytes. -/
def read_ipv4 : DecM Bytes := read_bytes 4

/-- `read_network_v4`: 5 raw bytes. -/
def read_network_v4 : DecM Bytes := read_bytes 5

/-- `read_string`: u32 length, then that many bytes (raw; UTF-8 decode not
modelled).  A zero length returns the empty string without a bounds check. -/
def read_string : DecM Bytes :=
  read_u32 >>= fun length => fun s1 =>
    if length = 0 then (Except.ok [], s1)
    else if s1.offset + length > s1.data.length then
      (Except.error (DecErr.insufficientData s1.offset length), s1)
    else
      (Except.ok (slice s1.data s1.offset length), { s1 with offset := s1.offset + length })

/-- Reads `m` consecutive fixed-size chunks of `esz` bytes each (the loop
bodies of `read_pubkey_raw_vec` and `read_network_v4_vec`). -/
def read_chunks (esz : Nat) : Nat → DecM (List Bytes)
  | 0 => pure []
  | m + 1 =>
    read_bytes esz >>= fun c =>
      read_chunks esz m >>= fun rest => pure (c :: rest)

/-- `read_pubkey_raw_vec`: u32 count then that many 32-byte keys. -/
def read_pubkey_raw_vec : DecM (List Bytes) :=
  read_u32 >>= fun length => read_chunks 32 length

/-- `read_network_v4_vec`: u32 count then that many 5-byte networks. -/
def read_network_v4_vec : DecM (List Bytes) :=
  read_u32 >>= fun length => read_chunks 5 length

/-! Try variants: return the caller-supplied default, without consuming,
when `self.remaining < n`; otherwise delegate to the strict read. -/

/-- `try_read_u8`. -/
def try_read_u8 (d : Nat) : DecM Nat := fun s =>
  if s.remaining < 1 then (Except.ok d, s) else read_u8 s

/-- `try_read_bool`. -/
def try_read_bool (d : Bool) : DecM Bool := fun s =>
  if s.remaining < 1 then (Except.ok d, s) else read_bool s

/-- `try_read_u16`. -/
def try_read_u16 (d : Nat) : DecM Nat := fun s =>
  if s.remaining < 2 then (Except.ok d, s) else read_u16 s

/-- `try_read_u32`. -/
def try_read_u32 (d : Nat) : DecM Nat := fun s =>
  if s.remaining < 4 then (Except.ok d, s) else read_u32 s

/-- `try_read_u64`. -/
def try_read_u64 (d : Nat) : DecM Nat := fun s =>
  if s.remaining < 8 then (Except.ok d, s) else read_u64 s

/-- `try_read_u128`. -/
def try_read_u128 (d : Nat) : DecM Nat := fun s =>
  if s.remaining < 16 then (Except.ok d, s) else read_u128 s

/-- `try_read_f64`. -/
def try_read_f64 (d : Nat) : DecM Nat := fun s =>
  if s.remaining < 8 then (Except.ok d, s) else read_f64 s

/-- `try_read_pubkey_raw`. -/
def try_read_pubkey_raw (d : Bytes) : DecM Bytes := fun s =>
  if s.remaining < 32 then (Except.ok d, s) else read_pubkey_raw s

/-- `try_read_ipv4`. -/
def try_read_ipv4 (d : Bytes) : DecM Bytes := fun s =>
  if s.remaining < 4 then (Except.ok d, s) else read_ipv4 s

/-- `try_read_network_v4`. -/
def try_read_network_v4 (d : Bytes) : DecM Bytes := fun s =>
  if s.remaining < 5 then (Except.ok d, s) else read_network_v4 s

/-- `try_read_string`: the guard covers only the 4-byte length, not the body. -/
def try_read_string (d : Bytes) : DecM Bytes := fun s =>
  if s.remaining < 4 then (Except.ok d, s) else read_string s

/-- `try_read_pubkey_raw_vec`: the guard covers only the 4-byte count. -/
def try_read_pubkey_raw_vec (d : List Bytes) : DecM (List Bytes) := fun s =>
  if s.remaining < 4 then (Except.ok d, s) else read_pubkey_raw_vec s

/-- `try_read_network_v4_vec`: the guard covers only the 4-byte count. -/
def try_read_network_v4_vec (d : List Bytes) : DecM (List Bytes) := fun s =>
  if s.remaining < 4 then (Except.ok d, s) else read_network_v4_vec s

end IncrementalReader

namespace DefensiveReader

/-! `DefensiveReader`: wraps an `IncrementalReader` and routes every read
through the corresponding `try_read` with the natural zero default. -/

def read_u8 : DecM Nat := IncrementalReader.try_read_u8 0

def read_bool : DecM Bool := IncrementalReader.try_read_bool false

def read_u16 : DecM Nat := IncrementalReader.try_read_u16 0

def read_u32 : DecM Nat := IncrementalReader.try_read_u32 0

def read_u64 : DecM Nat := IncrementalReader.try_read_u64 0

def read_u128 : DecM Nat := IncrementalReader.try_read_u128 0

def read_f64 : DecM Nat := IncrementalReader.try_read_f64 0

def read_pubkey_raw : DecM Bytes := IncrementalReader.try_read_pubkey_raw (List.replicate 32 0)

def read_ipv4 : DecM Bytes := IncrementalReader.try_read_ipv4 (List.replicate 4 0)

def read_network_v4 : DecM Bytes := IncrementalReader.try_read_network_v4 (List.replicate 5 0)

def read_string : DecM Bytes := IncrementalReader.try_read_string []

def read_pubkey_raw_vec : DecM (List Bytes) := IncrementalReader.try_read_pubkey_raw_vec []

def read_network_v4_vec : DecM (List Bytes) := IncrementalReader.try_read_network_v4_vec []

/-- `DefensiveReader.read_bytes(n)`: zero bytes when insufficient. -/
def read_bytes (n : Nat) : DecM Bytes := fun s =>
  if s.remaining < n then (Except.ok (List.replicate n 0), s)
  else IncrementalReader.read_bytes n s

end DefensiveReader

/-! Serviceability account decoders, translated from
`sdk/serviceability/python/serviceability/state.py`.  Each `IntEnum` class
is modelled by the list of its member values; constructing the enum from an
integer validates membership and raises `ValueError` otherwise (none of
these enums defines a `_missing_` hook).  The decoded enum field carries
the underlying integer. -/

/-- `IntEnum` construction: `Enum(v)` succeeds exactly when `v` is a member. -/
def intEnum (members : List Nat) (v : Nat) : Except DecErr Nat :=
  if v ∈ members then Except.ok v else Except.error DecErr.valueError

/-- Member values of `LocationStatus`. -/
def LocationStatus.members : List Nat := [0, 1, 2]

/-- Member values of `LinkLinkType` (`WAN = 1`, `DZX = 127`). -/
def LinkLinkType.members : List Nat := [1, 127]

/-- Member values of `LinkStatus`. -/
def LinkStatus.members : List Nat := [0, 1, 3, 4, 5, 6, 7, 8]

/-- Member values of `LinkHealth`. -/
def LinkHealth.members : List Nat := [0, 1, 2, 3]

/-- Member values of `LinkDesiredStatus`. -/
def LinkDesiredStatus.members : List Nat := [0, 1, 6, 7]

/-- Member values of `AccessPassTypeTag` (`PREPAID = 0` is the first member). -/
def AccessPassTypeTag.members : List Nat := [0, 1, 2, 3, 4, 5]

/-- Member values of `AccessPassStatus`. -/
def AccessPassStatus.members : List Nat := [0, 1, 2, 3]

/-- Member values of `InterfaceStatus`. -/
def InterfaceStatus.members : List Nat := [0, 1, 2, 3, 4, 5, 6]

/-- Member values of `InterfaceType`. -/
def InterfaceType.members : List Nat := [0, 1, 2]

/-- Member values of `InterfaceCYOA`. -/
def InterfaceCYOA.members : List Nat := [0, 1, 2, 3, 4, 5]

/-- Member values of `InterfaceDIA`. -/
def InterfaceDIA.members : List Nat := [0, 1]

/-- Member values of `LoopbackType`. -/
def LoopbackType.members : List Nat := [0, 1, 2, 3, 4]

/-- Member values of `RoutingMode`. -/
def RoutingMode.members : List Nat := [0, 1]

/-- `CURRENT_INTERFACE_VERSION`. -/
def CURRENT_INTERFACE_VERSION : Nat := 2

/-- The `Interface` dataclass.  Enum fields carry their integer value;
dataclass defaults are the zero values of each field. -/
structure Interface where
  version : Nat := 0
  status : Nat := 0
  name : Bytes := []
  interface_type : Nat := 0
  interface_cyoa : Nat := 0
  interface_dia : Nat := 0
  loopback_type : Nat := 0
  bandwidth : Nat := 0
  cir : Nat := 0
  mtu : Nat := 0
  routing_mode : Nat := 0
  vlan_id : Nat := 0
  ip_net : Bytes := List.replicate 5 0
  node_segment_idx : Nat := 0
  user_tunnel_endpoint : Bool := false
deriving DecidableEq

/-- The default `Interface()` value (all dataclass defaults). -/
def Interface.default : Interface := {}

/-- `Interface.from_reader`, translated line by line.  The reader passed at
the only call site (`Device.from_bytes`) is a `DefensiveReader`, so the
reads here are the defaulting ones.  In-place field assignment on the
mutable dataclass is rendered as one record update at the end of each
branch. -/
def Interface.from_reader : DecM Interface := do
  let version ← DefensiveReader.read_u8
  if version > CURRENT_INTERFACE_VERSION - 1 then
    pure { Interface.default with version := version }
  else if version = 0 then do
    let statusRaw ← DefensiveReader.read_u8
    let status ← liftE (intEnum InterfaceStatus.members statusRaw)
    let name ← DefensiveReader.read_string
    let itRaw ← DefensiveReader.read_u8
    let interface_type ← liftE (intEnum InterfaceType.members itRaw)
    let lbRaw ← DefensiveReader.read_u8
    let loopback_type ← liftE (intEnum LoopbackType.members lbRaw)
    let vlan_id ← DefensiveReader.read_u16
    let ip_net ← DefensiveReader.read_network_v4
    let node_segment_idx ← DefensiveReader.read_u16
    let user_tunnel_endpoint ← DefensiveReader.read_bool
    pure { Interface.default with
      version, status, name, interface_type, loopback_type,
      vlan_id, ip_net, node_segment_idx, user_tunnel_endpoint }
  else do
    let statusRaw ← DefensiveReader.read_u8
    let status ← liftE (intEnum InterfaceStatus.members statusRaw)
    let name ← DefensiveReader.read_string
    let itRaw ← DefensiveReader.read_u8
    let interface_type ← liftE (intEnum InterfaceType.members itRaw)
    let cyoaRaw ← DefensiveReader.read_u8
    let interface_cyoa ← liftE (intEnum InterfaceCYOA.members cyoaRaw)
    let diaRaw ← DefensiveReader.read_u8
    let interface_dia ← liftE (intEnum InterfaceDIA.members diaRaw)
    let lbRaw ← DefensiveReader.read_u8
    let loopback_type ← liftE (intEnum LoopbackType.members lbRaw)
    let bandwidth ← DefensiveReader.read_u64
    let cir ← DefensiveReader.read_u64
    let mtu ← DefensiveReader.read_u16
    let rmRaw ← DefensiveReader.read_u8
    let routing_mode ← liftE (intEnum RoutingMode.members rmRaw)
    let vlan_id ← DefensiveReader.read_u16
    let ip_net ← DefensiveReader.read_network_v4
    let node_segment_idx ← DefensiveReader.read_u16
    let user_tunnel_endpoint ← DefensiveReader.read_bool
    pure { Interface.default with
      version, status, name, interface_type, interface_cyoa, interface_dia,
      loopback_type, bandwidth, cir, mtu, routing_mode,
      vlan_id, ip_net, node_segment_idx, user_tunnel_endpoint }

/-- The `Location` dataclass (lat and lng carry the f64 bit pattern). -/
structure Location where
  account_type : Nat := 0
  owner : Bytes := List.replicate 32 0
  index : Nat := 0
  bump_seed : Nat := 0
  lat : Nat := 0
  lng : Nat := 0
  loc_id : Nat := 0
  status : Nat := 0
  code : Bytes := []
  name : Bytes := []
  country : Bytes := []
  reference_count : Nat := 0
deriving DecidableEq

/-- The body of `Location.from_bytes` as a decoding step. -/
def Location.decode : DecM Location := do
  let account_type ← DefensiveReader.read_u8
  let owner ← DefensiveReader.read_pubkey_raw
  let index ← DefensiveReader.read_u128
  let bump_seed ← DefensiveReader.read_u8
  let lat ← DefensiveReader.read_f64
  let lng ← DefensiveReader.read_f64
  let loc_id ← DefensiveReader.read_u32
  let statusRaw ← DefensiveReader.read_u8
  let status ← liftE (intEnum LocationStatus.members statusRaw)
  let code ← DefensiveReader.read_string
  let name ← DefensiveReader.read_string
  let country ← DefensiveReader.read_string
  let reference_count ← DefensiveReader.read_u32
  pure { account_type, owner, index, bump_seed, lat, lng, loc_id,
         status, code, name, country, reference_count }

/-- `Location.from_bytes(data)`: runs the decoder on a fresh reader; the
reader object itself is not returned by the Python classmethod. -/
def Location.from_bytes (data : Bytes) : Except DecErr Location :=
  (Location.decode (RState.mk data 0)).1

/-- The `Link` dataclass. -/
structure Link where
  account_type : Nat := 0
  owner : Bytes := List.replicate 32 0
  index : Nat := 0
  bump_seed : Nat := 0
  side_a_pub_key : Bytes := List.replicate 32 0
  side_z_pub_key : Bytes := List.replicate 32 0
  link_type : Nat := 1
  bandwidth : Nat := 0
  mtu : Nat := 0
  delay_ns : Nat := 0
  jitter_ns : Nat := 0
  tunnel_id : Nat := 0
  tunnel_net : Bytes := List.replicate 5 0
  status : Nat := 0
  code : Bytes := []
  contributor_pub_key : Bytes := List.replicate 32 0
  side_a_iface_name : Bytes := []
  side_z_iface_name : Bytes := []
  delay_override_ns : Nat := 0
  link_health : Nat := 0
  link_desired_status : Nat := 0
deriving DecidableEq

/-- The body of `Link.from_bytes` as a decoding step. -/
def Link.decode : DecM Link := do
  let account_type ← DefensiveReader.read_u8
  let owner ← DefensiveReader.read_pubkey_raw
  let index ← DefensiveReader.read_u128
  let bump_seed ← DefensiveReader.read_u8
  let side_a_pub_key ← DefensiveReader.read_pubkey_raw
  let side_z_pub_key ← DefensiveReader.read_pubkey_raw
  let ltRaw ← DefensiveReader.read_u8
  let link_type ← liftE (intEnum LinkLinkType.members ltRaw)
  let bandwidth ← DefensiveReader.read_u64
  let mtu ← DefensiveReader.read_u32
  let delay_ns ← DefensiveReader.read_u64
  let jitter_ns ← DefensiveReader.read_u64
  let tunnel_id ← DefensiveReader.read_u16
  let tunnel_net ← DefensiveReader.read_network_v4
  let stRaw ← DefensiveReader.read_u8
  let status ← liftE (intEnum LinkStatus.members stRaw)
  let code ← DefensiveReader.read_string
  let contributor_pub_key ← DefensiveReader.read_pubkey_raw
  let side_a_iface_name ← DefensiveReader.read_string
  let side_z_iface_name ← DefensiveReader.read_string
  let delay_override_ns ← DefensiveReader.read_u64
  let lhRaw ← DefensiveReader.read_u8
  let link_health ← liftE (intEnum LinkHealth.members lhRaw)
  let ldRaw ← DefensiveReader.read_u8
  let link_desired_status ← liftE (intEnum LinkDesiredStatus.members ldRaw)
  pure { account_type, owner, index, bump_seed, side_a_pub_key, side_z_pub_key,
         link_type, bandwidth, mtu, delay_ns, jitter_ns, tunnel_id, tunnel_net,
         status, code, contributor_pub_key, side_a_iface_name, side_z_iface_name,
         delay_override_ns, link_health, link_desired_status }

/-- `Link.from_bytes(data)`. -/
def Link.from_bytes (data : Bytes) : Except DecErr Link :=
  (Link.decode (RState.mk data 0)).1

/-- The `AccessPass` dataclass. -/
structure AccessPass where
  account_type : Nat := 0
  owner : Bytes := List.replicate 32 0
  bump_seed : Nat := 0
  access_pass_type_tag : Nat := 0
  associated_pubkey : Option Bytes := none
  others_type_name : Bytes := []
  others_key : Bytes := []
  client_ip : Bytes := List.replicate 4 0
  user_payer : Bytes := List.replicate 32 0
  last_access_epoch : Nat := 0
  connection_count : Nat := 0
  status : Nat := 0
  mgroup_pub_allowlist : List Bytes := []
  mgroup_sub_allowlist : List Bytes := []
  flags : Nat := 0
deriving DecidableEq

/-- The fields of `AccessPass.from_bytes` common to all variants, read after
the variant region. -/
def AccessPass.decodeTail (account_type : Nat) (owner : Bytes) (bump_seed : Nat)
    (access_pass_type_tag : Nat) (associated_pubkey : Option Bytes)
    (others_type_name others_key : Bytes) : DecM AccessPass := do
  let client_ip ← DefensiveReader.read_ipv4
  let user_payer ← DefensiveReader.read_pubkey_raw
  let last_access_epoch ← DefensiveReader.read_u64
  let connection_count ← DefensiveReader.read_u16
  let stRaw ← DefensiveReader.read_u8
  let status ← liftE (intEnum AccessPassStatus.members stRaw)
  let mgroup_pub_allowlist ← DefensiveReader.read_pubkey_raw_vec
  let mgroup_sub_allowlist ← DefensiveReader.read_pubkey_raw_vec
  let flags ← DefensiveReader.read_u8
  pure { account_type, owner, bump_seed, access_pass_type_tag, associated_pubkey,
         others_type_name, others_key, client_ip, user_payer, last_access_epoch,
         connection_count, status, mgroup_pub_allowlist, mgroup_sub_allowlist, flags }

/-- The body of `AccessPass.from_bytes`.  The raw tag byte is wrapped in
`try/except ValueError`, falling back to `AccessPassTypeTag.PREPAID` (value
0, the first member); the variant dispatch then branches on the raw tag:
tags 1-4 read one pubkey, tag 5 reads two strings, any other tag reads
nothing extra. -/
def AccessPass.decode : DecM AccessPass := do
  let account_type ← DefensiveReader.read_u8
  let owner ← DefensiveReader.read_pubkey_raw
  let bump_seed ← DefensiveReader.read_u8
  let tag ← DefensiveReader.read_u8
  let access_pass_type_tag := if tag ∈ AccessPassTypeTag.members then tag else 0
  if tag = 1 ∨ tag = 2 ∨ tag = 3 ∨ tag = 4 then do
    let assoc ← DefensiveReader.read_pubkey_raw
    AccessPass.decodeTail account_type owner bump_seed access_pass_type_tag
      (some assoc) [] []
  else if tag = 5 then do
    let others_type_name ← DefensiveReader.read_string
    let others_key ← DefensiveReader.read_string
    AccessPass.decodeTail account_type owner bump_seed access_pass_type_tag
      none others_type_name others_key
  else
    AccessPass.decodeTail account_type owner bump_seed access_pass_type_tag
      none [] []

/-- `AccessPass.from_bytes(data)`. -/
def AccessPass.from_bytes (data : Bytes) : Except DecErr AccessPass :=
  (AccessPass.decode (RState.mk data 0)).1

/-! Fixed-layout record decoders, translated from
`sdk/revdist/python/revdist/state.py`.  These decode `repr(C)` structs with
`struct.unpack_from` at explicit offsets; each top-level decoder first
validates an 8-byte discriminator, requires the remaining body to be at
least `STRUCT_SIZE` bytes (extra trailing bytes are tolerated), then reads
fields while accumulating a running offset, and asserts at the end that the
offset equals `STRUCT_SIZE` exactly.  `unpack_from` and raw slicing are
modelled with `slice`/`leVal`; every read is within `STRUCT_SIZE`, which
the `_deserialize` length check guarantees to be in bounds. -/

/-- `DISCRIMINATOR_SIZE`. -/
def DISCRIMINATOR_SIZE : Nat := 8

/-- `validate_discriminator` followed by the body extraction of
`_deserialize`: checks the 8-byte discriminator and the minimum body size,
returning the body `data[8:]` (trailing bytes included). -/
def deserialize (data disc : Bytes) (minSize : Nat) : Except DecErr Bytes :=
  if data.length < DISCRIMINATOR_SIZE then Except.error DecErr.tooShort
  else if data.take DISCRIMINATOR_SIZE ≠ disc then Except.error DecErr.invalidDiscriminator
  else
    let body := data.drop DISCRIMINATOR_SIZE
    if body.length < minSize then Except.error DecErr.tooShort
    else Except.ok body

/-- `CommunityBurnRateParameters` (six u32 fields, 24 bytes). -/
structure CommunityBurnRateParameters where
  limit : Nat
  dz_epochs_to_increasing : Nat
  dz_epochs_to_limit : Nat
  cached_slope_numerator : Nat
  cached_slope_denominator : Nat
  cached_next_burn_rate : Nat
deriving DecidableEq

/-- `CommunityBurnRateParameters.STRUCT_SIZE`. -/
def CommunityBurnRateParameters.STRUCT_SIZE : Nat := 24

/-- `CommunityBurnRateParameters.from_bytes(data, offset)`:
`struct.unpack_from("<6I", data, offset)`. -/
def CommunityBurnRateParameters.from_bytes (data : Bytes) (offset : Nat) :
    CommunityBurnRateParameters :=
  { limit := leVal (slice data offset 4)
    dz_epochs_to_increasing := leVal (slice data (offset + 4) 4)
    dz_epochs_to_limit := leVal (slice data (offset + 8) 4)
    cached_slope_numerator := leVal (slice data (offset + 12) 4)
    cached_slope_denominator := leVal (slice data (offset + 16) 4)
    cached_next_burn_rate := leVal (slice data (offset + 20) 4) }

/-- `SolanaValidatorFeeParameters` (4 u16, one u32, 28 reserved bytes). -/
structure SolanaValidatorFeeParameters where
  base_block_rewards_pct : Nat
  priority_block_rewards_pct : Nat
  inflation_rewards_pct : Nat
  jito_tips_pct : Nat
  fixed_sol_amount : Nat
  reserved0 : Bytes
deriving DecidableEq

/-- `SolanaValidatorFeeParameters.STRUCT_SIZE`. -/
def SolanaValidatorFeeParameters.STRUCT_SIZE : Nat := 40

/-- `SolanaValidatorFeeParameters.from_bytes(data, offset)`. -/
def SolanaValidatorFeeParameters.from_bytes (data : Bytes) (offset : Nat) :
    SolanaValidatorFeeParameters :=
  { base_block_rewards_pct := leVal (slice data offset 2)
    priority_block_rewards_pct := leVal (slice data (offset + 2) 2)
    inflation_rewards_pct := leVal (slice data (offset + 4) 2)
    jito_tips_pct := leVal (slice data (offset + 6) 2)
    fixed_sol_amount := leVal (slice data (offset + 8) 4)
    reserved0 := slice data (offset + 12) 28 }

/-- `RelayParameters` (two u32, 32 reserved bytes). -/
structure RelayParameters where
  placeholder_lamports : Nat
  distribute_rewards_lamports : Nat
  reserved0 : Bytes
deriving DecidableEq

/-- `RelayParameters.STRUCT_SIZE`. -/
def RelayParameters.STRUCT_SIZE : Nat := 40

/-- `RelayParameters.from_bytes(data, offset)`. -/
def RelayParameters.from_bytes (data : Bytes) (offset : Nat) : RelayParameters :=
  { placeholder_lamports := leVal (slice data offset 4)
    distribute_rewards_lamports := leVal (slice data (offset + 4) 4)
    reserved0 := slice data (offset + 8) 32 }

/-- `RecipientShare` (32-byte key plus u16 share). -/
structure RecipientShare where
  recipient_key : Bytes
  share : Nat
deriving DecidableEq

/-- `RecipientShare.STRUCT_SIZE`. -/
def RecipientShare.STRUCT_SIZE : Nat := 34

/-- `RecipientShare.from_bytes(data, offset)`. -/
def RecipientShare.from_bytes (data : Bytes) (offset : Nat) : RecipientShare :=
  { recipient_key := slice data offset 32
    share := leVal (slice data (offset + 32) 2) }

/-- `DistributionParameters` (nested sub-structs and storage gaps). -/
structure DistributionParameters where
  calculation_grace_period_minutes : Nat
  initialization_grace_period_minutes : Nat
  minimum_epoch_duration_to_finalize_rewards : Nat
  reserved0 : Bytes
  community_burn_rate_parameters : CommunityBurnRateParameters
  solana_validator_fee_parameters : SolanaValidatorFeeParameters
  reserved1 : Bytes
deriving DecidableEq

/-- `DistributionParameters.STRUCT_SIZE`. -/
def DistributionParameters.STRUCT_SIZE : Nat := 328

/-- `DistributionParameters.from_bytes(data, offset)`, with the running
offset accumulation and the byte-coverage assertion of the source. -/
def DistributionParameters.from_bytes (data : Bytes) (offset : Nat) :
    Except DecErr DistributionParameters :=
  let off := offset
  let calc_gp := leVal (slice data off 2)
  let init_gp := leVal (slice data (off + 2) 2)
  let off := off + 4
  let min_epoch := leVal (slice data off 1)
  let off := off + 1
  let reserved0 := slice data off 3
  let off := off + 3
  let burn := CommunityBurnRateParameters.from_bytes data off
  let off := off + CommunityBurnRateParameters.STRUCT_SIZE
  let vfee := SolanaValidatorFeeParameters.from_bytes data off
  let off := off + SolanaValidatorFeeParameters.STRUCT_SIZE
  let reserved1 := slice data off 256
  let off := off + 256
  if off - offset = DistributionParameters.STRUCT_SIZE then
    Except.ok
      { calculation_grace_period_minutes := calc_gp
        initialization_grace_period_minutes := init_gp
        minimum_epoch_duration_to_finalize_rewards := min_epoch
        reserved0
        community_burn_rate_parameters := burn
        solana_validator_fee_parameters := vfee
        reserved1 }
  else Except.error DecErr.assertionFailure

/-- The `ProgramConfig` account of the revenue distribution program. -/
structure ProgramConfigR where
  flags : Nat
  next_completed_dz_epoch : Nat
  bump_seed : Nat
  reserve_2z_bump_seed : Nat
  swap_authority_bump_seed : Nat
  swap_destination_2z_bump_seed : Nat
  withdraw_sol_authority_bump_seed : Nat
  reserved0 : Bytes
  admin_key : Bytes
  debt_accountant_key : Bytes
  rewards_accountant_key : Bytes
  contributor_manager_key : Bytes
  placeholder_key : Bytes
  sol_2z_swap_program_id : Bytes
  distribution_parameters : DistributionParameters
  relay_parameters : RelayParameters
  last_initialized_distribution_timestamp : Nat
  reserved1 : Bytes
  debt_write_off_feature_activation_epoch : Nat
deriving DecidableEq

/-- `ProgramConfig.STRUCT_SIZE` (revdist). -/
def ProgramConfigR.STRUCT_SIZE : Nat := 600

/-- The field reads of `ProgramConfig.from_bytes` over the validated body. -/
def ProgramConfigR.decodeBody (b : Bytes) : Except DecErr ProgramConfigR :=
  let off := 0
  let flags := leVal (slice b off 8)
  let next_epoch := leVal (slice b (off + 8) 8)
  let off := off + 16
  let bump := leVal (slice b off 1)
  let r2z := leVal (slice b (off + 1) 1)
  let swap_auth := leVal (slice b (off + 2) 1)
  let swap_dest := leVal (slice b (off + 3) 1)
  let withdraw := leVal (slice b (off + 4) 1)
  let off := off + 5
  let reserved0 := slice b off 3
  let off := off + 3
  let admin := slice b off 32
  let off := off + 32
  let debt := slice b off 32
  let off := off + 32
  let rewards := slice b off 32
  let off := off + 32
  let contrib_mgr := slice b off 32
  let off := off + 32
  let placeholder := slice b off 32
  let off := off + 32
  let swap_prog := slice b off 32
  let off := off + 32
  match DistributionParameters.from_bytes b off with
  | Except.error e => Except.error e
  | Except.ok dist_params =>
    let off := off + DistributionParameters.STRUCT_SIZE
    let relay := RelayParameters.from_bytes b off
    let off := off + RelayParameters.STRUCT_SIZE
    let last_ts := leVal (slice b off 4)
    let off := off + 4
    let reserved1 := slice b off 4
    let off := off + 4
    let debt_wo_epoch := leVal (slice b off 8)
    let off := off + 8
    if off = ProgramConfigR.STRUCT_SIZE then
      Except.ok
        { flags
          next_completed_dz_epoch := next_epoch
          bump_seed := bump
          reserve_2z_bump_seed := r2z
          swap_authority_bump_seed := swap_auth
          swap_destination_2z_bump_seed := swap_dest
          withdraw_sol_authority_bump_seed := withdraw
          reserved0
          admin_key := admin
          debt_accountant_key := debt
          rewards_accountant_key := rewards
          contributor_manager_key := contrib_mgr
          placeholder_key := placeholder
          sol_2z_swap_program_id := swap_prog
          distribution_parameters := dist_params
          relay_parameters := relay
          last_initialized_distribution_timestamp := last_ts
          reserved1
          debt_write_off_feature_activation_epoch := debt_wo_epoch }
    else Except.error DecErr.assertionFailure

/-- `ProgramConfig.from_bytes(data, discriminator)` (revdist). -/
def ProgramConfigR.from_bytes (data disc : Bytes) : Except DecErr ProgramConfigR :=
  match deserialize data disc ProgramConfigR.STRUCT_SIZE with
  | Except.error e => Except.error e
  | Except.ok b => ProgramConfigR.decodeBody b

/-- The `Distribution` account. -/
structure Distribution where
  dz_epoch : Nat
  flags : Nat
  community_burn_rate : Nat
  bump_seed : Nat
  token_2z_pda_bump_seed : Nat
  reserved0 : Bytes
  solana_validator_fee_parameters : SolanaValidatorFeeParameters
  solana_validator_debt_merkle_root : Bytes
  total_solana_validators : Nat
  solana_validator_payments_count : Nat
  total_solana_validator_debt : Nat
  collected_solana_validator_payments : Nat
  rewards_merkle_root : Bytes
  total_contributors : Nat
  distributed_rewards_count : Nat
  collected_prepaid_2z_payments : Nat
  collected_2z_converted_from_sol : Nat
  uncollectible_sol_debt : Nat
  processed_sv_debt_start_index : Nat
  processed_sv_debt_end_index : Nat
  processed_rewards_start_index : Nat
  processed_rewards_end_index : Nat
  distribute_rewards_relay_lamports : Nat
  calculation_allowed_timestamp : Nat
  distributed_2z_amount : Nat
  burned_2z_amount : Nat
  processed_sv_debt_wo_start_index : Nat
  processed_sv_debt_wo_end_index : Nat
  solana_validator_write_off_count : Nat
  reserved1 : Bytes
  reserved2 : Bytes
deriving DecidableEq

/-- `Distribution.STRUCT_SIZE`. -/
def Distribution.STRUCT_SIZE : Nat := 448

/-- The field reads of `Distribution.from_bytes` over the validated body. -/
def Distribution.decodeBody (b : Bytes) : Except DecErr Distribution :=
  let off := 0
  let dz_epoch := leVal (slice b off 8)
  let flags := leVal (slice b (off + 8) 8)
  let off := off + 16
  let burn_rate := leVal (slice b off 4)
  let off := off + 4
  let bump := leVal (slice b off 1)
  let t2z_bump := leVal (slice b (off + 1) 1)
  let off := off + 2
  let reserved0 := slice b off 2
  let off := off + 2
  let vfee := SolanaValidatorFeeParameters.from_bytes b off
  let off := off + SolanaValidatorFeeParameters.STRUCT_SIZE
  let sv_debt_root := slice b off 32
  let off := off + 32
  let total_sv := leVal (slice b off 4)
  let sv_pay_count := leVal (slice b (off + 4) 4)
  let off := off + 8
  let total_sv_debt := leVal (slice b off 8)
  let collected_sv_pay := leVal (slice b (off + 8) 8)
  let off := off + 16
  let rewards_root := slice b off 32
  let off := off + 32
  let total_contrib := leVal (slice b off 4)
  let dist_rew_count := leVal (slice b (off + 4) 4)
  let off := off + 8
  let coll_2z := leVal (slice b off 8)
  let coll_sol := leVal (slice b (off + 8) 8)
  let uncoll := leVal (slice b (off + 16) 8)
  let off := off + 24
  let ps_start := leVal (slice b off 4)
  let ps_end := leVal (slice b (off + 4) 4)
  let pr_start := leVal (slice b (off + 8) 4)
  let pr_end := leVal (slice b (off + 12) 4)
  let dr_relay := leVal (slice b (off + 16) 4)
  let calc_ts := leVal (slice b (off + 20) 4)
  let off := off + 24
  let dist_2z := leVal (slice b off 8)
  let burned_2z := leVal (slice b (off + 8) 8)
  let off := off + 16
  let wo_start := leVal (slice b off 4)
  let wo_end := leVal (slice b (off + 4) 4)
  let wo_count := leVal (slice b (off + 8) 4)
  let off := off + 12
  let reserved1 := slice b off 20
  let off := off + 20
  let reserved2 := slice b off 192
  let off := off + 192
  if off = Distribution.STRUCT_SIZE then
    Except.ok
      { dz_epoch
        flags
        community_burn_rate := burn_rate
        bump_seed := bump
        token_2z_pda_bump_seed := t2z_bump
        reserved0
        solana_validator_fee_parameters := vfee
        solana_validator_debt_merkle_root := sv_debt_root
        total_solana_validators := total_sv
        solana_validator_payments_count := sv_pay_count
        total_solana_validator_debt := total_sv_debt
        collected_solana_validator_payments := collected_sv_pay
        rewards_merkle_root := rewards_root
        total_contributors := total_contrib
        distributed_rewards_count := dist_rew_count
        collected_prepaid_2z_payments := coll_2z
        collected_2z_converted_from_sol := coll_sol
        uncollectible_sol_debt := uncoll
        processed_sv_debt_start_index := ps_start
        processed_sv_debt_end_index := ps_end
        processed_rewards_start_index := pr_start
        processed_rewards_end_index := pr_end
        distribute_rewards_relay_lamports := dr_relay
        calculation_allowed_timestamp := calc_ts
        distributed_2z_amount := dist_2z
        burned_2z_amount := burned_2z
        processed_sv_debt_wo_start_index := wo_start
        processed_sv_debt_wo_end_index := wo_end
        solana_validator_write_off_count := wo_count
        reserved1
        reserved2 }
  else Except.error DecErr.assertionFailure

/-- `Distribution.from_bytes(data, discriminator)`. -/
def Distribution.from_bytes (data disc : Bytes) : Except DecErr Distribution :=
  match deserialize data disc Distribution.STRUCT_SIZE with
  | Except.error e => Except.error e
  | Except.ok b => Distribution.decodeBody b

/-- The `SolanaValidatorDeposit` account. -/
structure SolanaValidatorDeposit where
  node_id : Bytes
  written_off_sol_debt : Nat
  reserved0 : Bytes
  reserved1 : Bytes
deriving DecidableEq

/-- `SolanaValidatorDeposit.STRUCT_SIZE`. -/
def SolanaValidatorDeposit.STRUCT_SIZE : Nat := 96

/-- The field reads of `SolanaValidatorDeposit.from_bytes`. -/
def SolanaValidatorDeposit.decodeBody (b : Bytes) : Except DecErr SolanaValidatorDeposit :=
  let off := 0
  let node_id := slice b off 32
  let off := off + 32
  let debt := leVal (slice b off 8)
  let off := off + 8
  let reserved0 := slice b off 24
  let off := off + 24
  let reserved1 := slice b off 32
  let off := off + 32
  if off = SolanaValidatorDeposit.STRUCT_SIZE then
    Except.ok { node_id, written_off_sol_debt := debt, reserved0, reserved1 }
  else Except.error DecErr.assertionFailure

/-- `SolanaValidatorDeposit.from_bytes(data, discriminator)`. -/
def SolanaValidatorDeposit.from_bytes (data disc : Bytes) :
    Except DecErr SolanaValidatorDeposit :=
  match deserialize data disc SolanaValidatorDeposit.STRUCT_SIZE with
  | Except.error e => Except.error e
  | Except.ok b => SolanaValidatorDeposit.decodeBody b

/-- The `ContributorRewards` account. -/
structure ContributorRewards where
  rewards_manager_key : Bytes
  service_key : Bytes
  flags : Nat
  recipient_shares : List RecipientShare
  reserved0 : Bytes
deriving DecidableEq

/-- `ContributorRewards.STRUCT_SIZE`. -/
def ContributorRewards.STRUCT_SIZE : Nat := 600

/-- The `for _ in range(k)` loop reading consecutive `RecipientShare`
entries at `off`, `off + 34`, and so on. -/
def RecipientShare.readList (b : Bytes) (off : Nat) : Nat → List RecipientShare
  | 0 => []
  | k + 1 =>
    RecipientShare.from_bytes b off ::
      RecipientShare.readList b (off + RecipientShare.STRUCT_SIZE) k

/-- The field reads of `ContributorRewards.from_bytes`. -/
def ContributorRewards.decodeBody (b : Bytes) : Except DecErr ContributorRewards :=
  let off := 0
  let mgr := slice b off 32
  let off := off + 32
  let svc := slice b off 32
  let off := off + 32
  let flags := leVal (slice b off 8)
  let off := off + 8
  let shares := RecipientShare.readList b off 8
  let off := off + 8 * RecipientShare.STRUCT_SIZE
  let reserved0 := slice b off 256
  let off := off + 256
  if off = ContributorRewards.STRUCT_SIZE then
    Except.ok
      { rewards_manager_key := mgr
        service_key := svc
        flags
        recipient_shares := shares
        reserved0 }
  else Except.error DecErr.assertionFailure

/-- `ContributorRewards.from_bytes(data, discriminator)`. -/
def ContributorRewards.from_bytes (data disc : Bytes) : Except DecErr ContributorRewards :=
  match deserialize data disc ContributorRewards.STRUCT_SIZE with
  | Except.error e => Except.error e
  | Except.ok b => ContributorRewards.decodeBody b

/-- The `Journal` account. -/
structure Journal where
  bump_seed : Nat
  token_2z_pda_bump_seed : Nat
  reserved0 : Bytes
  total_sol_balance : Nat
  total_2z_balance : Nat
  swap_2z_destination_balance : Nat
  swapped_sol_amount : Nat
  next_dz_epoch_to_sweep_tokens : Nat
  lifetime_swapped_2z_amount : Bytes
deriving DecidableEq

/-- `Journal.STRUCT_SIZE`. -/
def Journal.STRUCT_SIZE : Nat := 64

/-- The field reads of `Journal.from_bytes`. -/
def Journal.decodeBody (b : Bytes) : Except DecErr Journal :=
  let off := 0
  let bump := leVal (slice b off 1)
  let t2z_bump := leVal (slice b (off + 1) 1)
  let off := off + 2
  let reserved0 := slice b off 6
  let off := off + 6
  let total_sol := leVal (slice b off 8)
  let total_2z := leVal (slice b (off + 8) 8)
  let swap_dest := leVal (slice b (off + 16) 8)
  let swapped := leVal (slice b (off + 24) 8)
  let next_epoch := leVal (slice b (off + 32) 8)
  let off := off + 40
  let lifetime := slice b off 16
  let off := off + 16
  if off = Journal.STRUCT_SIZE then
    Except.ok
      { bump_seed := bump
        token_2z_pda_bump_seed := t2z_bump
        reserved0
        total_sol_balance := total_sol
        total_2z_balance := total_2z
        swap_2z_destination_balance := swap_dest
        swapped_sol_amount := swapped
        next_dz_epoch_to_sweep_tokens := next_epoch
        lifetime_swapped_2z_amount := lifetime }
  else Except.error DecErr.assertionFailure

/-- `Journal.from_bytes(data, discriminator)`. -/
def Journal.from_bytes (data disc : Bytes) : Except DecErr Journal :=
  match deserialize data disc Journal.STRUCT_SIZE with
  | Except.error e => Except.error e
  | Except.ok b => Journal.decodeBody b

/-! The lenient batch decoding path, translated from
`smartcontract/sdk/python/serviceability_borsh.py`.  Schemas there are
parsed from a `ZeroPadBytesIO` stream: a fixed-size read of `n` bytes
returns the available bytes padded with zeros to length `n`, and the
stream position advances only by the bytes actually available (never past
the end of the underlying buffer). -/

/-- A fixed-size read from a `ZeroPadBytesIO` stream at position `pos`:
the slice padded with zeros up to `n` bytes. -/
def padRead (b : Bytes) (pos n : Nat) : Bytes :=
  slice b pos n ++ List.replicate (n - (slice b pos n).length) 0

/-- The stream position after reading `n` bytes: advances by the bytes
actually available. -/
def posAfter (b : Bytes) (pos n : Nat) : Nat := min (pos + n) b.length

/-- The batch-path `Uint128` schema: `CStruct("high" / U64, "low" / U64)`.
It binds the first 8 bytes of the field to `high` and the next 8 to `low`. -/
structure Uint128 where
  high : Nat
  low : Nat
deriving DecidableEq

/-- Parsing the `Uint128` schema from the padded stream. -/
def Uint128.parse (b : Bytes) (pos : Nat) : Uint128 × Nat :=
  let high := leVal (padRead b pos 8)
  let pos := posAfter b pos 8
  let low := leVal (padRead b pos 8)
  let pos := posAfter b pos 8
  (⟨high, low⟩, pos)

/-- `SafeBorshString._parse`: reads a u32 length from the padded stream;
zero length yields the empty string; a length larger than the bytes
remaining in the underlying buffer consumes the remainder and yields the
empty string; otherwise the body bytes are returned (UTF-8 with
`replace` never raises, so the value is carried as raw bytes). -/
def SafeBorshString.parse (b : Bytes) (pos : Nat) : Bytes × Nat :=
  let n := leVal (padRead b pos 4)
  let pos1 := posAfter b pos 4
  if n = 0 then ([], pos1)
  else
    let remaining := b.length - pos1
    if n > remaining then ([], b.length)
    else (slice b pos1 n, pos1 + n)

/-- The element loop of `SafeFixedVec._parse`: `k` fixed-size element reads
from the padded stream. -/
def SafeFixedVec.readElems (b : Bytes) (esz : Nat) : Nat → Nat → List Bytes × Nat
  | 0, pos => ([], pos)
  | k + 1, pos =>
    let e := padRead b pos esz
    let pos1 := posAfter b pos esz
    let rest := SafeFixedVec.readElems b esz k pos1
    (e :: rest.1, rest.2)

/-- `SafeFixedVec._parse`: reads a u32 count from the padded stream; zero
count yields `[]`; if `count * elem_size` exceeds the bytes remaining in
the underlying buffer it returns `[]` without reading any element
(position left after the count); otherwise the elements are read. -/
def SafeFixedVec.parse (b : Bytes) (esz : Nat) (pos : Nat) : List Bytes × Nat :=
  let n := leVal (padRead b pos 4)
  let pos1 := posAfter b pos 4
  if n = 0 then ([], pos1)
  else
    let remaining := b.length - pos1
    let need := n * esz
    if need > remaining then ([], pos1)
    else SafeFixedVec.readElems b esz n pos1

/-! `Client.get_program_data`, translated from the same file.  The per-tag
schemas are abstracted by a decode function `parse`: the loop itself reads
the leading type-tag byte, dispatches, stores the result (with the account
pubkey attached) in the bucket of that tag, converts a decode failure into
one `ParseError` entry, skips empty buffers, and silently skips buffers
with an unrecognized tag. -/

/-- A batch `ParseError` entry:
`(acct_pubkey, account_type_byte, data_len, error_str)`. -/
structure ParseError where
  identifier : Bytes
  type_tag : Nat
  buffer_length : Nat
  message : String
deriving DecidableEq

/-- The `ProgramData` result of batch dispatch, with one bucket per known
account type.  `α` abstracts the parsed record type. -/
structure ProgramData (α : Type) where
  config : Option (Bytes × α) := none
  locations : List (Bytes × α) := []
  exchanges : List (Bytes × α) := []
  contributors : List (Bytes × α) := []
  devices : List (Bytes × α) := []
  links : List (Bytes × α) := []
  users : List (Bytes × α) := []
  multicast_groups : List (Bytes × α) := []
  program_config : Option α := none
  parse_errors : List ParseError := []

/-- One iteration of the `get_program_data` loop on an
`(acct_pubkey, data)` pair. -/
def dispatchStep {α : Type} (parse : Nat → Bytes → Except String α)
    (pd : ProgramData α) (acct : Bytes × Bytes) : ProgramData α :=
  match acct.2 with
  | [] => pd
  | t0 :: _ =>
    let t := t0.val
    let d := acct.2
    if t = 2 then
      match parse t d with
      | Except.ok x => { pd with config := some (acct.1, x) }
      | Except.error m =>
        { pd with parse_errors := pd.parse_errors ++ [⟨acct.1, t, d.length, m⟩] }
    else if t = 3 then
      match parse t d with
      | Except.ok x => { pd with locations := pd.locations ++ [(acct.1, x)] }
      | Except.error m =>
        { pd with parse_errors := pd.parse_errors ++ [⟨acct.1, t, d.length, m⟩] }
    else if t = 4 then
      match parse t d with
      | Except.ok x => { pd with exchanges := pd.exchanges ++ [(acct.1, x)] }
      | Except.error m =>
        { pd with parse_errors := pd.parse_errors ++ [⟨acct.1, t, d.length, m⟩] }
    else if t = 10 then
      match parse t d with
      | Except.ok x => { pd with contributors := pd.contributors ++ [(acct.1, x)] }
      | Except.error m =>
        { pd with parse_errors := pd.parse_errors ++ [⟨acct.1, t, d.length, m⟩] }
    else if t = 5 then
      match parse t d with
      | Except.ok x => { pd with devices := pd.devices ++ [(acct.1, x)] }
      | Except.error m =>
        { pd with parse_errors := pd.parse_errors ++ [⟨acct.1, t, d.length, m⟩] }
    else if t = 6 then
      match parse t d with
      | Except.ok x => { pd with links := pd.links ++ [(acct.1, x)] }
      | Except.error m =>
        { pd with parse_errors := pd.parse_errors ++ [⟨acct.1, t, d.length, m⟩] }
    else if t = 7 then
      match parse t d with
      | Except.ok x => { pd with users := pd.users ++ [(acct.1, x)] }
      | Except.error m =>
        { pd with parse_errors := pd.parse_errors ++ [⟨acct.1, t, d.length, m⟩] }
    else if t = 8 then
      match parse t d with
      | Except.ok x => { pd with multicast_groups := pd.multicast_groups ++ [(acct.1, x)] }
      | Except.error m =>
        { pd with parse_errors := pd.parse_errors ++ [⟨acct.1, t, d.length, m⟩] }
    else if t = 9 then
      match parse t d with
      | Except.ok x => { pd with program_config := some x }
      | Except.error m =>
        { pd with parse_errors := pd.parse_errors ++ [⟨acct.1, t, d.length, m⟩] }
    else pd

/-- `Client.get_program_data`: folds the dispatch loop over the fetched
`(acct_pubkey, data)` pairs, starting from an empty `ProgramData`. -/
def get_program_data {α : Type} (parse : Nat → Bytes → Except String α)
    (accts : List (Bytes × Bytes)) : ProgramData α :=
  accts.foldl (dispatchStep parse) {}

/-! Helper lemmas about `leVal` and `slice`. -/

theorem leVal_append (xs ys : Bytes) :
    leVal (xs ++ ys) = leVal xs + 256 ^ xs.length * leVal ys := by
  induction xs with
  | nil => simp [leVal]
  | cons x xs ih =>
    rw [List.cons_append]
    show x.val + 256 * leVal (xs ++ ys) =
      (x.val + 256 * leVal xs) + 256 ^ (xs.length + 1) * leVal ys
    rw [ih, pow_succ]
    ring

theorem leVal_lt (xs : Bytes) : leVal xs < 256 ^ xs.length := by
  induction xs with
  | nil => simp [leVal]
  | cons x xs ih =>
    have hx : x.val < 256 := x.isLt
    simp only [leVal, List.length_cons, pow_succ]
    omega

theorem slice_length (b : Bytes) (off n : Nat) :
    (slice b off n).length = min n (b.length - off) := by
  simp [slice]

theorem slice_split (b : Bytes) (off m n : Nat) :
    slice b off (m + n) = slice b off m ++ slice b (off + m) n := by
  simp only [slice, List.take_add, List.drop_drop]

/-- The two little-endian u64 words of a 16-byte field, recombined as
`low | (high << 64)`, give the little-endian value of the whole field. -/
theorem u128_recombine (b : Bytes) (off : Nat) (h : off + 16 ≤ b.length) :
    leVal (slice b off 8) ||| (leVal (slice b (off + 8) 8) <<< 64) =
      leVal (slice b off 16) := by
  have hlen : (slice b off 8).length = 8 := by
    rw [slice_length]; omega
  have hlow : leVal (slice b off 8) < 2 ^ 64 := by
    have := leVal_lt (slice b off 8)
    rw [hlen] at this
    norm_num at this ⊢
    omega
  have hsplit : leVal (slice b off 16) =
      leVal (slice b off 8) + 2 ^ 64 * leVal (slice b (off + 8) 8) := by
    have h16 : (16 : Nat) = 8 + 8 := by norm_num
    rw [h16, slice_split, leVal_append, hlen]
    norm_num
  have hor := Nat.mul_add_lt_is_or hlow (leVal (slice b (off + 8) 8))
  rw [hsplit, Nat.shiftLeft_eq, Nat.lor_comm,
    Nat.mul_comm (leVal (slice b (off + 8) 8)) (2 ^ 64), ← hor]
  omega

/-! Evaluated forms of the strict reads.  The read fails exactly when
`offset + n > len(buffer)`, leaving the state unchanged; otherwise it
returns the little-endian decode of the `n`-byte slice at `offset` and
advances the offset by exactly `n`. -/

theorem read_bytes_eq (n : Nat) (s : RState) :
    IncrementalReader.read_bytes n s =
      if s.offset + n ≤ s.data.length then
        (Except.ok (slice s.data s.offset n), { s with offset := s.offset + n })
      else (Except.error (DecErr.insufficientData s.offset n), s) := by
  unfold IncrementalReader.read_bytes
  by_cases h : s.offset + n > s.data.length
  · rw [if_pos h, if_neg (by omega)]
  · rw [if_neg h, if_pos (by omega)]

theorem read_u8_eq (s : RState) :
    IncrementalReader.read_u8 s =
      if s.offset + 1 ≤ s.data.length then
        (Except.ok (leVal (slice s.data s.offset 1)), { s with offset := s.offset + 1 })
      else (Except.error (DecErr.insufficientData s.offset 1), s) := by
  unfold IncrementalReader.read_u8
  by_cases h : s.offset + 1 > s.data.length
  · rw [if_pos h, if_neg (by omega)]
  · rw [if_neg h, if_pos (by omega)]

theorem read_u16_eq (s : RState) :
    IncrementalReader.read_u16 s =
      if s.offset + 2 ≤ s.data.length then
        (Except.ok (leVal (slice s.data s.offset 2)), { s with offset := s.offset + 2 })
      else (Except.error (DecErr.insufficientData s.offset 2), s) := by
  unfold IncrementalReader.read_u16
  by_cases h : s.offset + 2 > s.data.length
  · rw [if_pos h, if_neg (by omega)]
  · rw [if_neg h, if_pos (by omega)]

theorem read_u32_eq (s : RState) :
    IncrementalReader.read_u32 s =
      if s.offset + 4 ≤ s.data.length then
        (Except.ok (leVal (slice s.data s.offset 4)), { s with offset := s.offset + 4 })
      else (Except.error (DecErr.insufficientData s.offset 4), s) := by
  unfold IncrementalReader.read_u32
  by_cases h : s.offset + 4 > s.data.length
  · rw [if_pos h, if_neg (by omega)]
  · rw [if_neg h, if_pos (by omega)]

theorem read_u64_eq (s : RState) :
    IncrementalReader.read_u64 s =
      if s.offset + 8 ≤ s.data.length then
        (Except.ok (leVal (slice s.data s.offset 8)), { s with offset := s.offset + 8 })
      else (Except.error (DecErr.insufficientData s.offset 8), s) := by
  unfold IncrementalReader.read_u64
  by_cases h : s.offset + 8 > s.data.length
  · rw [if_pos h, if_neg (by omega)]
  · rw [if_neg h, if_pos (by omega)]

theorem read_f64_eq (s : RState) :
    IncrementalReader.read_f64 s =
      if s.offset + 8 ≤ s.data.length then
        (Except.ok (leVal (slice s.data s.offset 8)), { s with offset := s.offset + 8 })
      else (Except.error (DecErr.insufficientData s.offset 8), s) := by
  unfold IncrementalReader.read_f64
  by_cases h : s.offset + 8 > s.data.length
  · rw [if_pos h, if_neg (by omega)]
  · rw [if_neg h, if_pos (by omega)]

/-- The u128 read succeeds exactly on 16 available bytes and returns the
little-endian value of the full 16-byte slice. -/
theorem read_u128_eq (s : RState) :
    IncrementalReader.read_u128 s =
      if s.offset + 16 ≤ s.data.length then
        (Except.ok (leVal (slice s.data s.offset 16)), { s with offset := s.offset + 16 })
      else (Except.error (DecErr.insufficientData s.offset 16), s) := by
  unfold IncrementalReader.read_u128
  by_cases h : s.offset + 16 > s.data.length
  · rw [if_pos h, if_neg (by omega)]
  · rw [if_neg h, if_pos (by omega), u128_recombine s.data s.offset (by omega)]

theorem read_bool_eq (s : RState) :
    IncrementalReader.read_bool s =
      if s.offset + 1 ≤ s.data.length then
        (Except.ok (leVal (slice s.data s.offset 1) != 0),
          { s with offset := s.offset + 1 })
      else (Except.error (DecErr.insufficientData s.offset 1), s) := by
  unfold IncrementalReader.read_bool
  rw [DecM.bind_apply, read_u8_eq]
  by_cases h : s.offset + 1 ≤ s.data.length
  · rw [if_pos h, if_pos h]
    rfl
  · rw [if_neg h, if_neg h]

/-! Evaluated forms of the `try_read` defaulting reads: when fewer than `n`
bytes remain they return the default without consuming; otherwise they
delegate to the strict read, which then always succeeds. -/

theorem try_read_u8_eq (d : Nat) (s : RState) :
    IncrementalReader.try_read_u8 d s =
      if s.remaining < 1 then (Except.ok d, s)
      else (Except.ok (leVal (slice s.data s.offset 1)), { s with offset := s.offset + 1 }) := by
  unfold IncrementalReader.try_read_u8
  by_cases h : s.remaining < 1
  · rw [if_pos h, if_pos h]
  · rw [if_neg h, if_neg h, read_u8_eq,
      if_pos (by unfold RState.remaining at h; omega)]

theorem try_read_bool_eq (d : Bool) (s : RState) :
    IncrementalReader.try_read_bool d s =
      if s.remaining < 1 then (Except.ok d, s)
      else (Except.ok (leVal (slice s.data s.offset 1) != 0),
        { s with offset := s.offset + 1 }) := by
  unfold IncrementalReader.try_read_bool
  by_cases h : s.remaining < 1
  · rw [if_pos h, if_pos h]
  · rw [if_neg h, if_neg h, read_bool_eq,
      if_pos (by unfold RState.remaining at h; omega)]

theorem try_read_u16_eq (d : Nat) (s : RState) :
    IncrementalReader.try_read_u16 d s =
      if s.remaining < 2 then (Except.ok d, s)
      else (Except.ok (leVal (slice s.data s.offset 2)), { s with offset := s.offset + 2 }) := by
  unfold IncrementalReader.try_read_u16
  by_cases h : s.remaining < 2
  · rw [if_pos h, if_pos h]
  · rw [if_neg h, if_neg h, read_u16_eq,
      if_pos (by unfold RState.remaining at h; omega)]

theorem try_read_u32_eq (d : Nat) (s : RState) :
    IncrementalReader.try_read_u32 d s =
      if s.remaining < 4 then (Except.ok d, s)
      else (Except.ok (leVal (slice s.data s.offset 4)), { s with offset := s.offset + 4 }) := by
  unfold IncrementalReader.try_read_u32
  by_cases h : s.remaining < 4
  · rw [if_pos h, if_pos h]
  · rw [if_neg h, if_neg h, read_u32_eq,
      if_pos (by unfold RState.remaining at h; omega)]

theorem try_read_u64_eq (d : Nat) (s : RState) :
    IncrementalReader.try_read_u64 d s =
      if s.remaining < 8 then (Except.ok d, s)
      else (Except.ok (leVal (slice s.data s.offset 8)), { s with offset := s.offset + 8 }) := by
  unfold IncrementalReader.try_read_u64
  by_cases h : s.remaining < 8
  · rw [if_pos h, if_pos h]
  · rw [if_neg h, if_neg h, read_u64_eq,
      if_pos (by unfold RState.remaining at h; omega)]

theorem try_read_u128_eq (d : Nat) (s : RState) :
    IncrementalReader.try_read_u128 d s =
      if s.remaining < 16 then (Except.ok d, s)
      else (Except.ok (leVal (slice s.data s.offset 16)),
        { s with offset := s.offset + 16 }) := by
  unfold IncrementalReader.try_read_u128
  by_cases h : s.remaining < 16
  · rw [if_pos h, if_pos h]
  · rw [if_neg h, if_neg h, read_u128_eq,
      if_pos (by unfold RState.remaining at h; omega)]

theorem try_read_f64_eq (d : Nat) (s : RState) :
    IncrementalReader.try_read_f64 d s =
      if s.remaining < 8 then (Except.ok d, s)
      else (Except.ok (leVal (slice s.data s.offset 8)), { s with offset := s.offset + 8 }) := by
  unfold IncrementalReader.try_read_f64
  by_cases h : s.remaining < 8
  · rw [if_pos h, if_pos h]
  · rw [if_neg h, if_neg h, read_f64_eq,
      if_pos (by unfold RState.remaining at h; omega)]

theorem try_read_pubkey_raw_eq (d : Bytes) (s : RState) :
    IncrementalReader.try_read_pubkey_raw d s =
      if s.remaining < 32 then (Except.ok d, s)
      else (Except.ok (slice s.data s.offset 32), { s with offset := s.offset + 32 }) := by
  unfold IncrementalReader.try_read_pubkey_raw
  by_cases h : s.remaining < 32
  · rw [if_pos h, if_pos h]
  · rw [if_neg h, if_neg h]
    show IncrementalReader.read_bytes 32 s = _
    rw [read_bytes_eq, if_pos (by unfold RState.remaining at h; omega)]

theorem try_read_ipv4_eq (d : Bytes) (s : RState) :
    IncrementalReader.try_read_ipv4 d s =
      if s.remaining < 4 then (Except.ok d, s)
      else (Except.ok (slice s.data s.offset 4), { s with offset := s.offset + 4 }) := by
  unfold IncrementalReader.try_read_ipv4
  by_cases h : s.remaining < 4
  · rw [if_pos h, if_pos h]
  · rw [if_neg h, if_neg h]
    show IncrementalReader.read_bytes 4 s = _
    rw [read_bytes_eq, if_pos (by unfold RState.remaining at h; omega)]

theorem try_read_network_v4_eq (d : Bytes) (s : RState) :
    IncrementalReader.try_read_network_v4 d s =
      if s.remaining < 5 then (Except.ok d, s)
      else (Except.ok (slice s.data s.offset 5), { s with offset := s.offset + 5 }) := by
  unfold IncrementalReader.try_read_network_v4
  by_cases h : s.remaining < 5
  · rw [if_pos h, if_pos h]
  · rw [if_neg h, if_neg h]
    show IncrementalReader.read_bytes 5 s = _
    rw [read_bytes_eq, if_pos (by unfold RState.remaining at h; omega)]

/-- C3: for every fixed-width primitive kind and every reader state, the
strict read fails exactly when `offset + sizeof(T) > len(buffer)` and on
failure leaves the state (and in particular the offset) unchanged;
otherwise it returns the value decoded little-endian from
`buffer[offset .. offset + sizeof(T))` and advances the offset by exactly
`sizeof(T)`.  The kinds are u8, bool (u8 compared with 0), u16, u32, u64,
u128 (the little-endian value of all 16 bytes), f64 (its 64-bit pattern),
the 32-byte key, the 4-byte IPv4 address, and the 5-byte network. -/
theorem spec_C3 (s : RState) :
    (IncrementalReader.read_u8 s =
      if s.offset + 1 ≤ s.data.length then
        (Except.ok (leVal (slice s.data s.offset 1)), { s with offset := s.offset + 1 })
      else (Except.error (DecErr.insufficientData s.offset 1), s))
    ∧ (IncrementalReader.read_bool s =
      if s.offset + 1 ≤ s.data.length then
        (Except.ok (leVal (slice s.data s.offset 1) != 0), { s with offset := s.offset + 1 })
      else (Except.error (DecErr.insufficientData s.offset 1), s))
    ∧ (IncrementalReader.read_u16 s =
      if s.offset + 2 ≤ s.data.length then
        (Except.ok (leVal (slice s.data s.offset 2)), { s with offset := s.offset + 2 })
      else (Except.error (DecErr.insufficientData s.offset 2), s))
    ∧ (IncrementalReader.read_u32 s =
      if s.offset + 4 ≤ s.data.length then
        (Except.ok (leVal (slice s.data s.offset 4)), { s with offset := s.offset + 4 })
      else (Except.error (DecErr.insufficientData s.offset 4), s))
    ∧ (IncrementalReader.read_u64 s =
      if s.offset + 8 ≤ s.data.length then
        (Except.ok (leVal (slice s.data s.offset 8)), { s with offset := s.offset + 8 })
      else (Except.error (DecErr.insufficientData s.offset 8), s))
    ∧ (IncrementalReader.read_u128 s =
      if s.offset + 16 ≤ s.data.length then
        (Except.ok (leVal (slice s.data s.offset 16)), { s with offset := s.offset + 16 })
      else (Except.error (DecErr.insufficientData s.offset 16), s))
    ∧ (IncrementalReader.read_f64 s =
      if s.offset + 8 ≤ s.data.length then
        (Except.ok (leVal (slice s.data s.offset 8)), { s with offset := s.offset + 8 })
      else (Except.error (DecErr.insufficientData s.offset 8), s))
    ∧ (IncrementalReader.read_pubkey_raw s =
      if s.offset + 32 ≤ s.data.length then
        (Except.ok (slice s.data s.offset 32), { s with offset := s.offset + 32 })
      else (Except.error (DecErr.insufficientData s.offset 32), s))
    ∧ (IncrementalReader.read_ipv4 s =
      if s.offset + 4 ≤ s.data.length then
        (Except.ok (slice s.data s.offset 4), { s with offset := s.offset + 4 })
      else (Except.error (DecErr.insufficientData s.offset 4), s))
    ∧ (IncrementalReader.read_network_v4 s =
      if s.offset + 5 ≤ s.data.length then
        (Except.ok (slice s.data s.offset 5), { s with offset := s.offset + 5 })
      else (Except.error (DecErr.insufficientData s.offset 5), s)) :=
  ⟨read_u8_eq s, read_bool_eq s, read_u16_eq s, read_u32_eq s, read_u64_eq s,
    read_u128_eq s, read_f64_eq s, read_bytes_eq 32 s, read_bytes_eq 4 s,
    read_bytes_eq 5 s⟩

/-- C4: for every fixed-width primitive kind and every caller-supplied
default, the `try_read` defaulting read returns the default and leaves the
offset unchanged when `remaining < sizeof(T)`, and otherwise returns
exactly what the strict read returns (the little-endian decode of the
slice), advancing the offset by `sizeof(T)`; and the `DefensiveReader`
wrapper behaves identically with the natural zero defaults. -/
theorem spec_C4 (s : RState) :
    (∀ d, IncrementalReader.try_read_u8 d s =
      if s.remaining < 1 then (Except.ok d, s)
      else (Except.ok (leVal (slice s.data s.offset 1)), { s with offset := s.offset + 1 }))
    ∧ (∀ d, IncrementalReader.try_read_bool d s =
      if s.remaining < 1 then (Except.ok d, s)
      else (Except.ok (leVal (slice s.data s.offset 1) != 0),
        { s with offset := s.offset + 1 }))
    ∧ (∀ d, IncrementalReader.try_read_u16 d s =
      if s.remaining < 2 then (Except.ok d, s)
      else (Except.ok (leVal (slice s.data s.offset 2)), { s with offset := s.offset + 2 }))
    ∧ (∀ d, IncrementalReader.try_read_u32 d s =
      if s.remaining < 4 then (Except.ok d, s)
      else (Except.ok (leVal (slice s.data s.offset 4)), { s with offset := s.offset + 4 }))
    ∧ (∀ d, IncrementalReader.try_read_u64 d s =
      if s.remaining < 8 then (Except.ok d, s)
      else (Except.ok (leVal (slice s.data s.offset 8)), { s with offset := s.offset + 8 }))
    ∧ (∀ d, IncrementalReader.try_read_u128 d s =
      if s.remaining < 16 then (Except.ok d, s)
      else (Except.ok (leVal (slice s.data s.offset 16)), { s with offset := s.offset + 16 }))
    ∧ (∀ d, IncrementalReader.try_read_f64 d s =
      if s.remaining < 8 then (Except.ok d, s)
      else (Except.ok (leVal (slice s.data s.offset 8)), { s with offset := s.offset + 8 }))
    ∧ (∀ d, IncrementalReader.try_read_pubkey_raw d s =
      if s.remaining < 32 then (Except.ok d, s)
      else (Except.ok (slice s.data s.offset 32), { s with offset := s.offset + 32 }))
    ∧ (∀ d, IncrementalReader.try_read_ipv4 d s =
      if s.remaining < 4 then (Except.ok d, s)
      else (Except.ok (slice s.data s.offset 4), { s with offset := s.offset + 4 }))
    ∧ (∀ d, IncrementalReader.try_read_network_v4 d s =
      if s.remaining < 5 then (Except.ok d, s)
      else (Except.ok (slice s.data s.offset 5), { s with offset := s.offset + 5 }))
    ∧ (DefensiveReader.read_u8 s =
      if s.remaining < 1 then (Except.ok 0, s)
      else (Except.ok (leVal (slice s.data s.offset 1)), { s with offset := s.offset + 1 }))
    ∧ (DefensiveReader.read_bool s =
      if s.remaining < 1 then (Except.ok false, s)
      else (Except.ok (leVal (slice s.data s.offset 1) != 0),
        { s with offset := s.offset + 1 }))
    ∧ (DefensiveReader.read_u16 s =
      if s.remaining < 2 then (Except.ok 0, s)
      else (Except.ok (leVal (slice s.data s.offset 2)), { s with offset := s.offset + 2 }))
    ∧ (DefensiveReader.read_u32 s =
      if s.remaining < 4 then (Except.ok 0, s)
      else (Except.ok (leVal (slice s.data s.offset 4)), { s with offset := s.offset + 4 }))
    ∧ (DefensiveReader.read_u64 s =
      if s.remaining < 8 then (Except.ok 0, s)
      else (Except.ok (leVal (slice s.data s.offset 8)), { s with offset := s.offset + 8 }))
    ∧ (DefensiveReader.read_u128 s =
      if s.remaining < 16 then (Except.ok 0, s)
      else (Except.ok (leVal (slice s.data s.offset 16)), { s with offset := s.offset + 16 }))
    ∧ (DefensiveReader.read_f64 s =
      if s.remaining < 8 then (Except.ok 0, s)
      else (Except.ok (leVal (slice s.data s.offset 8)), { s with offset := s.offset + 8 }))
    ∧ (DefensiveReader.read_pubkey_raw s =
      if s.remaining < 32 then (Except.ok (List.replicate 32 0), s)
      else (Except.ok (slice s.data s.offset 32), { s with offset := s.offset + 32 }))
    ∧ (DefensiveReader.read_ipv4 s =
      if s.remaining < 4 then (Except.ok (List.replicate 4 0), s)
      else (Except.ok (slice s.data s.offset 4), { s with offset := s.offset + 4 }))
    ∧ (DefensiveReader.read_network_v4 s =
      if s.remaining < 5 then (Except.ok (List.replicate 5 0), s)
      else (Except.ok (slice s.data s.offset 5), { s with offset := s.offset + 5 })) :=
  ⟨fun d => try_read_u8_eq d s, fun d => try_read_bool_eq d s,
    fun d => try_read_u16_eq d s, fun d => try_read_u32_eq d s,
    fun d => try_read_u64_eq d s, fun d => try_read_u128_eq d s,
    fun d => try_read_f64_eq d s, fun d => try_read_pubkey_raw_eq d s,
    fun d => try_read_ipv4_eq d s, fun d => try_read_network_v4_eq d s,
    try_read_u8_eq 0 s, try_read_bool_eq false s, try_read_u16_eq 0 s,
    try_read_u32_eq 0 s, try_read_u64_eq 0 s, try_read_u128_eq 0 s,
    try_read_f64_eq 0 s, try_read_pubkey_raw_eq (List.replicate 32 0) s,
    try_read_ipv4_eq (List.replicate 4 0) s,
    try_read_network_v4_eq (List.replicate 5 0) s⟩

/-- Rewrites a bind whose first component is known to succeed. -/
theorem DecM.bind_ok_apply {α β : Type} {x : DecM α} {f : α → DecM β} {s s1 : RState}
    {a : α} (hx : x s = (Except.ok a, s1)) : (x >>= f) s = f a s1 := by
  rw [DecM.bind_apply, hx]

/-- Rewrites a bind whose first component is known to fail. -/
theorem DecM.bind_err_apply {α β : Type} {x : DecM α} {f : α → DecM β} {s s1 : RState}
    {e : DecErr} (hx : x s = (Except.error e, s1)) : (x >>= f) s = (Except.error e, s1) := by
  rw [DecM.bind_apply, hx]

/-- Reading `m` fixed-size chunks fails when fewer than `m * esz` bytes
remain (each chunk read is strict, so the first out-of-bounds chunk
raises). -/
theorem read_chunks_fail (esz : Nat) :
    ∀ (m : Nat) (s : RState), s.remaining < m * esz →
      ∃ e s1, IncrementalReader.read_chunks esz m s = (Except.error e, s1) := by
  intro m
  induction m with
  | zero =>
    intro s h
    rw [Nat.zero_mul] at h
    omega
  | succ m ih =>
    intro s h
    unfold RState.remaining at h
    unfold IncrementalReader.read_chunks
    by_cases hb : s.offset + esz ≤ s.data.length
    · have h1 : IncrementalReader.read_bytes esz s =
          (Except.ok (slice s.data s.offset esz), RState.mk s.data (s.offset + esz)) := by
        rw [read_bytes_eq, if_pos hb]
      have hrem : (RState.mk s.data (s.offset + esz)).remaining < m * esz := by
        unfold RState.remaining
        simp only
        simp only [Nat.succ_mul] at h
        omega
      obtain ⟨e, s1, hc⟩ := ih (RState.mk s.data (s.offset + esz)) hrem
      rw [DecM.bind_ok_apply h1, DecM.bind_err_apply hc]
      exact ⟨e, s1, rfl⟩
    · have h1 : IncrementalReader.read_bytes esz s =
          (Except.error (DecErr.insufficientData s.offset esz), s) := by
        rw [read_bytes_eq, if_neg hb]
      rw [DecM.bind_err_apply h1]
      exact ⟨DecErr.insufficientData s.offset esz, s, rfl⟩

/-- C2: for the defaulting string and vector reads, a state with fewer
than 4 remaining bytes yields the default with the offset unchanged; but
when at least 4 bytes remain and the decoded u32 length prefix declares a
nonempty body longer than the bytes remaining after the prefix, the read
raises a fatal error instead of returning the default (the guard covers
only the prefix, not the body). -/
theorem spec_C2 (s : RState) :
    (∀ d, s.remaining < 4 → IncrementalReader.try_read_string d s = (Except.ok d, s))
    ∧ (∀ d, s.remaining < 4 →
        IncrementalReader.try_read_pubkey_raw_vec d s = (Except.ok d, s))
    ∧ (∀ d, s.remaining < 4 →
        IncrementalReader.try_read_network_v4_vec d s = (Except.ok d, s))
    ∧ (∀ d, 4 ≤ s.remaining → 0 < leVal (slice s.data s.offset 4) →
        s.remaining - 4 < leVal (slice s.data s.offset 4) →
        (IncrementalReader.try_read_string d s).1 =
          Except.error
            (DecErr.insufficientData (s.offset + 4) (leVal (slice s.data s.offset 4))))
    ∧ (∀ d, 4 ≤ s.remaining → 0 < leVal (slice s.data s.offset 4) →
        s.remaining - 4 < leVal (slice s.data s.offset 4) * 32 →
        ∃ e, (IncrementalReader.try_read_pubkey_raw_vec d s).1 = Except.error e)
    ∧ (∀ d, 4 ≤ s.remaining → 0 < leVal (slice s.data s.offset 4) →
        s.remaining - 4 < leVal (slice s.data s.offset 4) * 5 →
        ∃ e, (IncrementalReader.try_read_network_v4_vec d s).1 = Except.error e) := by
  have hread32 : 4 ≤ s.remaining → IncrementalReader.read_u32 s =
      (Except.ok (leVal (slice s.data s.offset 4)), RState.mk s.data (s.offset + 4)) := by
    intro h4
    rw [read_u32_eq, if_pos (by unfold RState.remaining at h4; omega)]
  refine ⟨?_, ?_, ?_, ?_, ?_, ?_⟩
  · intro d h
    unfold IncrementalReader.try_read_string
    rw [if_pos h]
  · intro d h
    unfold IncrementalReader.try_read_pubkey_raw_vec
    rw [if_pos h]
  · intro d h
    unfold IncrementalReader.try_read_network_v4_vec
    rw [if_pos h]
  · intro d h4 hpos hover
    unfold RState.remaining at h4 hover
    unfold IncrementalReader.try_read_string
    rw [if_neg (by unfold RState.remaining; omega)]
    unfold IncrementalReader.read_string
    have hr := hread32 (by unfold RState.remaining; omega)
    simp only [DecM.bind_ok_apply hr]
    split
    case isTrue hn => exact absurd hn (by omega)
    case isFalse hn =>
      split
      case isTrue hc => rfl
      case isFalse hc => exact absurd (by omega) hc
  · intro d h4 hpos hover
    unfold RState.remaining at h4 hover
    unfold IncrementalReader.try_read_pubkey_raw_vec
    rw [if_neg (by unfold RState.remaining; omega)]
    unfold IncrementalReader.read_pubkey_raw_vec
    have hr := hread32 (by unfold RState.remaining; omega)
    simp only [DecM.bind_ok_apply hr]
    have hrem : (RState.mk s.data (s.offset + 4)).remaining <
        leVal (slice s.data s.offset 4) * 32 := by
      unfold RState.remaining
      simp only
      omega
    obtain ⟨e, s1, hc⟩ := read_chunks_fail 32 (leVal (slice s.data s.offset 4))
      (RState.mk s.data (s.offset + 4)) hrem
    rw [hc]
    exact ⟨e, rfl⟩
  · intro d h4 hpos hover
    unfold RState.remaining at h4 hover
    unfold IncrementalReader.try_read_network_v4_vec
    rw [if_neg (by unfold RState.remaining; omega)]
    unfold IncrementalReader.read_network_v4_vec
    have hr := hread32 (by unfold RState.remaining; omega)
    simp only [DecM.bind_ok_apply hr]
    have hrem : (RState.mk s.data (s.offset + 4)).remaining <
        leVal (slice s.data s.offset 4) * 5 := by
      unfold RState.remaining
      simp only
      omega
    obtain ⟨e, s1, hc⟩ := read_chunks_fail 5 (leVal (slice s.data s.offset 4))
      (RState.mk s.data (s.offset + 4)) hrem
    rw [hc]
    exact ⟨e, rfl⟩

/-- Witness for C2 at concrete inputs: a 3-byte buffer returns the default
with the offset unchanged; the string prefix `[5,0,0,0]` with no body
raises; and a pubkey-vector count of 1 with no element bytes raises. -/
theorem spec_C2_witness :
    IncrementalReader.try_read_string [5] (RState.mk [1, 2, 3] 0) =
      (Except.ok [5], RState.mk [1, 2, 3] 0)
    ∧ (IncrementalReader.try_read_string [] (RState.mk [5, 0, 0, 0] 0)).1 =
      Except.error (DecErr.insufficientData 4 5)
    ∧ ∃ e, (IncrementalReader.try_read_pubkey_raw_vec [] (RState.mk [1, 0, 0, 0] 0)).1 =
      Except.error e :=
  ⟨(spec_C2 _).1 [5] (by decide),
    (spec_C2 _).2.2.2.1 [] (by decide) (by decide) (by decide),
    (spec_C2 _).2.2.2.2.1 [] (by decide) (by decide) (by decide)⟩

/-- True exactly on a successful decode result. -/
def isOkE {ε α : Type} : Except ε α → Bool
  | Except.ok _ => true
  | Except.error _ => false

/-- `DistributionParameters.from_bytes` always reaches and passes its
byte-coverage assertion. -/
theorem DistributionParameters.from_bytes_ok (b : Bytes) (off : Nat) :
    ∃ v, DistributionParameters.from_bytes b off = Except.ok v := by
  unfold DistributionParameters.from_bytes
  simp only
  split
  case isTrue h => exact ⟨_, rfl⟩
  case isFalse h =>
    refine absurd ?_ h
    simp only [CommunityBurnRateParameters.STRUCT_SIZE,
      SolanaValidatorFeeParameters.STRUCT_SIZE, DistributionParameters.STRUCT_SIZE]
    omega

/-- C9: in every fixed-layout decoder, the cumulative offset after reading
all fields, padding, and nested sub-structs equals the declared
`STRUCT_SIZE` exactly, so the byte-coverage assertion can never fail: the
body decoders (which run after `_deserialize` validated the discriminator
and minimum size, and whose only failure mode is that assertion) succeed on
every input, as does the nested `DistributionParameters.from_bytes` at
every offset. -/
theorem spec_C9 (b : Bytes) (off : Nat) :
    isOkE (Journal.decodeBody b) = true
    ∧ isOkE (ProgramConfigR.decodeBody b) = true
    ∧ isOkE (Distribution.decodeBody b) = true
    ∧ isOkE (SolanaValidatorDeposit.decodeBody b) = true
    ∧ isOkE (ContributorRewards.decodeBody b) = true
    ∧ isOkE (DistributionParameters.from_bytes b off) = true := by
  refine ⟨?_, ?_, ?_, ?_, ?_, ?_⟩
  · simp [Journal.decodeBody, Journal.STRUCT_SIZE, isOkE]
  · obtain ⟨v, hv⟩ := DistributionParameters.from_bytes_ok b 216
    simp [ProgramConfigR.decodeBody, ProgramConfigR.STRUCT_SIZE,
      DistributionParameters.STRUCT_SIZE, RelayParameters.STRUCT_SIZE, hv, isOkE]
  · simp [Distribution.decodeBody, Distribution.STRUCT_SIZE,
      SolanaValidatorFeeParameters.STRUCT_SIZE, isOkE]
  · simp [SolanaValidatorDeposit.decodeBody, SolanaValidatorDeposit.STRUCT_SIZE, isOkE]
  · simp [ContributorRewards.decodeBody, ContributorRewards.STRUCT_SIZE,
      RecipientShare.STRUCT_SIZE, isOkE]
  · obtain ⟨v, hv⟩ := DistributionParameters.from_bytes_ok b off
    simp [hv, isOkE]

/-! Trailing bytes beyond the declared fixed size are ignored by the
fixed-layout decoders: the body decoders only look at the first
`STRUCT_SIZE` bytes of the body. -/

theorem slice_take (b : Bytes) (off n K : Nat) (h : off + n ≤ K) :
    slice (b.take K) off n = slice b off n := by
  simp only [slice, List.drop_take, List.take_take]
  rw [Nat.min_eq_left (by omega)]

theorem journalBody_take (b : Bytes) :
    Journal.decodeBody (b.take 64) = Journal.decodeBody b := by
  simp [Journal.decodeBody, Journal.STRUCT_SIZE, slice_take]

theorem svDepositBody_take (b : Bytes) :
    SolanaValidatorDeposit.decodeBody (b.take 96) = SolanaValidatorDeposit.decodeBody b := by
  simp [SolanaValidatorDeposit.decodeBody, SolanaValidatorDeposit.STRUCT_SIZE, slice_take]

theorem distributionBody_take (b : Bytes) :
    Distribution.decodeBody (b.take 448) = Distribution.decodeBody b := by
  simp [Distribution.decodeBody, Distribution.STRUCT_SIZE,
    SolanaValidatorFeeParameters.STRUCT_SIZE, SolanaValidatorFeeParameters.from_bytes,
    slice_take]

theorem DistributionParameters.from_bytes_take (b : Bytes) (off K : Nat)
    (h : off + 328 ≤ K) :
    DistributionParameters.from_bytes (b.take K) off =
      DistributionParameters.from_bytes b off := by
  simp only [DistributionParameters.from_bytes,
    CommunityBurnRateParameters.STRUCT_SIZE, SolanaValidatorFeeParameters.STRUCT_SIZE,
    CommunityBurnRateParameters.from_bytes, SolanaValidatorFeeParameters.from_bytes]
  rw [slice_take _ _ _ _ (by omega), slice_take _ _ _ _ (by omega),
    slice_take _ _ _ _ (by omega), slice_take _ _ _ _ (by omega),
    slice_take _ _ _ _ (by omega), slice_take _ _ _ _ (by omega),
    slice_take _ _ _ _ (by omega), slice_take _ _ _ _ (by omega),
    slice_take _ _ _ _ (by omega), slice_take _ _ _ _ (by omega),
    slice_take _ _ _ _ (by omega), slice_take _ _ _ _ (by omega),
    slice_take _ _ _ _ (by omega), slice_take _ _ _ _ (by omega),
    slice_take _ _ _ _ (by omega), slice_take _ _ _ _ (by omega),
    slice_take _ _ _ _ (by omega)]

theorem programConfigBody_take (b : Bytes) :
    ProgramConfigR.decodeBody (b.take 600) = ProgramConfigR.decodeBody b := by
  simp only [ProgramConfigR.decodeBody, ProgramConfigR.STRUCT_SIZE,
    DistributionParameters.STRUCT_SIZE, RelayParameters.STRUCT_SIZE,
    RelayParameters.from_bytes]
  rw [DistributionParameters.from_bytes_take _ _ 600 (by omega)]
  rw [slice_take _ _ _ _ (by omega), slice_take _ _ _ _ (by omega),
    slice_take _ _ _ _ (by omega), slice_take _ _ _ _ (by omega),
    slice_take _ _ _ _ (by omega), slice_take _ _ _ _ (by omega),
    slice_take _ _ _ _ (by omega), slice_take _ _ _ _ (by omega),
    slice_take _ _ _ _ (by omega), slice_take _ _ _ _ (by omega),
    slice_take _ _ _ _ (by omega), slice_take _ _ _ _ (by omega),
    slice_take _ _ _ _ (by omega), slice_take _ _ _ _ (by omega),
    slice_take _ _ _ _ (by omega), slice_take _ _ _ _ (by omega),
    slice_take _ _ _ _ (by omega), slice_take _ _ _ _ (by omega),
    slice_take _ _ _ _ (by omega), slice_take _ _ _ _ (by omega)]

theorem RecipientShare.readList_take (b : Bytes) (K : Nat) :
    ∀ (k off : Nat), off + k * 34 ≤ K →
      RecipientShare.readList (b.take K) off k = RecipientShare.readList b off k := by
  intro k
  induction k with
  | zero => intro off h; rfl
  | succ k ih =>
    intro off h
    unfold RecipientShare.readList RecipientShare.from_bytes
    simp only [RecipientShare.STRUCT_SIZE]
    rw [ih (off + 34) (by omega), slice_take _ _ _ _ (by omega),
      slice_take _ _ _ _ (by omega)]

theorem contributorRewardsBody_take (b : Bytes) :
    ContributorRewards.decodeBody (b.take 600) = ContributorRewards.decodeBody b := by
  simp only [ContributorRewards.decodeBody, ContributorRewards.STRUCT_SIZE,
    RecipientShare.STRUCT_SIZE]
  rw [RecipientShare.readList_take b 600 8 72 (by omega)]
  rw [slice_take _ _ _ _ (by omega), slice_take _ _ _ _ (by omega),
    slice_take _ _ _ _ (by omega), slice_take _ _ _ _ (by omega)]

/-- Under a valid discriminator and a body of at least `minSize` bytes,
`_deserialize` accepts both the buffer and the buffer with trailing bytes,
returning the corresponding bodies. -/
theorem deserialize_trailing (data suf disc : Bytes) (minSize : Nat)
    (h : 8 + minSize ≤ data.length) (hd : data.take 8 = disc) :
    deserialize (data ++ suf) disc minSize = Except.ok (data.drop 8 ++ suf)
    ∧ deserialize data disc minSize = Except.ok (data.drop 8) := by
  have hlen : (data ++ suf).length = data.length + suf.length := List.length_append data suf
  have htake : (data ++ suf).take 8 = disc := by
    rw [List.take_append_of_le_length (by omega), hd]
  have hdrop : (data ++ suf).drop 8 = data.drop 8 ++ suf :=
    List.drop_append_of_le_length (by omega)
  constructor
  · simp only [deserialize, DISCRIMINATOR_SIZE]
    rw [if_neg (show ¬ (data ++ suf).length < 8 by omega)]
    rw [if_neg (show ¬ (data ++ suf).take 8 ≠ disc from by simp [htake])]
    rw [hdrop]
    rw [if_neg (show ¬ (data.drop 8 ++ suf).length < minSize by
      (rw [List.length_append, List.length_drop]; omega))]
  · simp only [deserialize, DISCRIMINATOR_SIZE]
    rw [if_neg (show ¬ data.length < 8 by omega)]
    rw [if_neg (show ¬ data.take 8 ≠ disc from by simp [hd])]
    rw [if_neg (show ¬ (data.drop 8).length < minSize by
      (rw [List.length_drop]; omega))]

/-- C6: for every fixed-layout record type, every buffer whose first 8
bytes equal the expected discriminator and whose body holds at least
`STRUCT_SIZE` bytes, and every byte suffix, decoding the buffer with the
suffix appended yields the same record as decoding the buffer alone:
trailing bytes beyond the declared minimum are ignored and never cause
failure. -/
theorem spec_C6 (data suf disc : Bytes) :
    (data.take 8 = disc → 8 + Journal.STRUCT_SIZE ≤ data.length →
      Journal.from_bytes (data ++ suf) disc = Journal.from_bytes data disc)
    ∧ (data.take 8 = disc → 8 + ProgramConfigR.STRUCT_SIZE ≤ data.length →
      ProgramConfigR.from_bytes (data ++ suf) disc = ProgramConfigR.from_bytes data disc)
    ∧ (data.take 8 = disc → 8 + Distribution.STRUCT_SIZE ≤ data.length →
      Distribution.from_bytes (data ++ suf) disc = Distribution.from_bytes data disc)
    ∧ (data.take 8 = disc → 8 + SolanaValidatorDeposit.STRUCT_SIZE ≤ data.length →
      SolanaValidatorDeposit.from_bytes (data ++ suf) disc =
        SolanaValidatorDeposit.from_bytes data disc)
    ∧ (data.take 8 = disc → 8 + ContributorRewards.STRUCT_SIZE ≤ data.length →
      ContributorRewards.from_bytes (data ++ suf) disc =
        ContributorRewards.from_bytes data disc) := by
  refine ⟨?_, ?_, ?_, ?_, ?_⟩
  · intro hd h
    obtain ⟨h1, h2⟩ := deserialize_trailing data suf disc Journal.STRUCT_SIZE h hd
    unfold Journal.from_bytes
    rw [h1, h2]
    have hx : (64 : Nat) ≤ (data.drop 8).length := by
      rw [List.length_drop]
      simp only [Journal.STRUCT_SIZE] at h
      omega
    calc Journal.decodeBody (data.drop 8 ++ suf)
        = Journal.decodeBody ((data.drop 8 ++ suf).take 64) :=
          (journalBody_take _).symm
      _ = Journal.decodeBody ((data.drop 8).take 64) := by
          rw [List.take_append_of_le_length hx]
      _ = Journal.decodeBody (data.drop 8) := journalBody_take _
  · intro hd h
    obtain ⟨h1, h2⟩ := deserialize_trailing data suf disc ProgramConfigR.STRUCT_SIZE h hd
    unfold ProgramConfigR.from_bytes
    rw [h1, h2]
    have hx : (600 : Nat) ≤ (data.drop 8).length := by
      rw [List.length_drop]
      simp only [ProgramConfigR.STRUCT_SIZE] at h
      omega
    calc ProgramConfigR.decodeBody (data.drop 8 ++ suf)
        = ProgramConfigR.decodeBody ((data.drop 8 ++ suf).take 600) :=
          (programConfigBody_take _).symm
      _ = ProgramConfigR.decodeBody ((data.drop 8).take 600) := by
          rw [List.take_append_of_le_length hx]
      _ = ProgramConfigR.decodeBody (data.drop 8) := programConfigBody_take _
  · intro hd h
    obtain ⟨h1, h2⟩ := deserialize_trailing data suf disc Distribution.STRUCT_SIZE h hd
    unfold Distribution.from_bytes
    rw [h1, h2]
    have hx : (448 : Nat) ≤ (data.drop 8).length := by
      rw [List.length_drop]
      simp only [Distribution.STRUCT_SIZE] at h
      omega
    calc Distribution.decodeBody (data.drop 8 ++ suf)
        = Distribution.decodeBody ((data.drop 8 ++ suf).take 448) :=
          (distributionBody_take _).symm
      _ = Distribution.decodeBody ((data.drop 8).take 448) := by
          rw [List.take_append_of_le_length hx]
      _ = Distribution.decodeBody (data.drop 8) := distributionBody_take _
  · intro hd h
    obtain ⟨h1, h2⟩ :=
      deserialize_trailing data suf disc SolanaValidatorDeposit.STRUCT_SIZE h hd
    unfold SolanaValidatorDeposit.from_bytes
    rw [h1, h2]
    have hx : (96 : Nat) ≤ (data.drop 8).length := by
      rw [List.length_drop]
      simp only [SolanaValidatorDeposit.STRUCT_SIZE] at h
      omega
    calc SolanaValidatorDeposit.decodeBody (data.drop 8 ++ suf)
        = SolanaValidatorDeposit.decodeBody ((data.drop 8 ++ suf).take 96) :=
          (svDepositBody_take _).symm
      _ = SolanaValidatorDeposit.decodeBody ((data.drop 8).take 96) := by
          rw [List.take_append_of_le_length hx]
      _ = SolanaValidatorDeposit.decodeBody (data.drop 8) :=
          svDepositBody_take _
  · intro hd h
    obtain ⟨h1, h2⟩ :=
      deserialize_trailing data suf disc ContributorRewards.STRUCT_SIZE h hd
    unfold ContributorRewards.from_bytes
    rw [h1, h2]
    have hx : (600 : Nat) ≤ (data.drop 8).length := by
      rw [List.length_drop]
      simp only [ContributorRewards.STRUCT_SIZE] at h
      omega
    calc ContributorRewards.decodeBody (data.drop 8 ++ suf)
        = ContributorRewards.decodeBody ((data.drop 8 ++ suf).take 600) :=
          (contributorRewardsBody_take _).symm
      _ = ContributorRewards.decodeBody ((data.drop 8).take 600) := by
          rw [List.take_append_of_le_length hx]
      _ = ContributorRewards.decodeBody (data.drop 8) :=
          contributorRewardsBody_take _

/-! Characterization of batch dispatch: what each buffer contributes to the
result, independently of every other buffer. -/

/-- The `ParseError` entry a single `(identifier, buffer)` pair contributes:
one entry exactly when the buffer is non-empty, its leading type tag is
recognized, and its decode fails; the entry carries the identifier, the
type tag, the buffer length, and the message. -/
def errEntry {α : Type} (parse : Nat → Bytes → Except String α)
    (acct : Bytes × Bytes) : Option ParseError :=
  match acct.2 with
  | [] => none
  | t0 :: _ =>
    let t := t0.val
    if t = 2 ∨ t = 3 ∨ t = 4 ∨ t = 10 ∨ t = 5 ∨ t = 6 ∨ t = 7 ∨ t = 8 ∨ t = 9 then
      match parse t acct.2 with
      | Except.error m => some ⟨acct.1, t, acct.2.length, m⟩
      | Except.ok _ => none
    else none

/-- The typed record a single pair contributes to the bucket of tag `tag`:
one record exactly when the buffer is non-empty with that leading tag and
its decode succeeds. -/
def okEntry {α : Type} (parse : Nat → Bytes → Except String α) (tag : Nat)
    (acct : Bytes × Bytes) : Option (Bytes × α) :=
  match acct.2 with
  | [] => none
  | t0 :: _ =>
    if t0.val = tag then
      match parse t0.val acct.2 with
      | Except.ok x => some (acct.1, x)
      | Except.error _ => none
    else none

/-- The contribution to the `program_config` slot (tag 9, stored without
the account pubkey). -/
def okEntryPC {α : Type} (parse : Nat → Bytes → Except String α)
    (acct : Bytes × Bytes) : Option α :=
  match acct.2 with
  | [] => none
  | t0 :: _ =>
    if t0.val = 9 then
      match parse t0.val acct.2 with
      | Except.ok x => some x
      | Except.error _ => none
    else none

theorem getLast?_cons_or {α : Type} (a : α) (l : List α) :
    (a :: l).getLast? = l.getLast?.or (some a) := by
  induction l generalizing a with
  | nil => rfl
  | cons b t ih =>
    rw [List.getLast?_cons_cons, ih b, Option.or_assoc]
    rfl

/-- How one loop iteration updates each bucket of `ProgramData`. -/
theorem dispatchStep_projections {α : Type} (parse : Nat → Bytes → Except String α)
    (init : ProgramData α) (x : Bytes × Bytes) :
    (dispatchStep parse init x).parse_errors =
      init.parse_errors ++ (errEntry parse x).toList
    ∧ (dispatchStep parse init x).locations =
      init.locations ++ (okEntry parse 3 x).toList
    ∧ (dispatchStep parse init x).exchanges =
      init.exchanges ++ (okEntry parse 4 x).toList
    ∧ (dispatchStep parse init x).contributors =
      init.contributors ++ (okEntry parse 10 x).toList
    ∧ (dispatchStep parse init x).devices =
      init.devices ++ (okEntry parse 5 x).toList
    ∧ (dispatchStep parse init x).links =
      init.links ++ (okEntry parse 6 x).toList
    ∧ (dispatchStep parse init x).users =
      init.users ++ (okEntry parse 7 x).toList
    ∧ (dispatchStep parse init x).multicast_groups =
      init.multicast_groups ++ (okEntry parse 8 x).toList
    ∧ (dispatchStep parse init x).config = (okEntry parse 2 x).or init.config
    ∧ (dispatchStep parse init x).program_config =
      (okEntryPC parse x).or init.program_config := by
  rcases x with ⟨id, d⟩
  cases d with
  | nil => simp [dispatchStep, errEntry, okEntry, okEntryPC]
  | cons t0 rest =>
    by_cases h2 : t0.val = 2
    · cases hp : parse t0.val (t0 :: rest) with
      | error m =>
        rw [h2] at hp
        simp [dispatchStep, errEntry, okEntry, okEntryPC, h2, hp]
      | ok v =>
        rw [h2] at hp
        simp [dispatchStep, errEntry, okEntry, okEntryPC, h2, hp]
    · 
      by_cases h3 : t0.val = 3
      · cases hp : parse t0.val (t0 :: rest) with
        | error m =>
          rw [h3] at hp
          simp [dispatchStep, errEntry, okEntry, okEntryPC, h2, h3, hp]
        | ok v =>
          rw [h3] at hp
          simp [dispatchStep, errEntry, okEntry, okEntryPC, h2, h3, hp]
      · 
        by_cases h4 : t0.val = 4
        · cases hp : parse t0.val (t0 :: rest) with
          | error m =>
            rw [h4] at hp
            simp [dispatchStep, errEntry, okEntry, okEntryPC, h2, h3, h4, hp]
          | ok v =>
            rw [h4] at hp
            simp [dispatchStep, errEntry, okEntry, okEntryPC, h2, h3, h4, hp]
        · 
          by_cases h10 : t0.val = 10
          · cases hp : parse t0.val (t0 :: rest) with
            | error m =>
              rw [h10] at hp
              simp [dispatchStep, errEntry, okEntry, okEntryPC, h2, h3, h4, h10, hp]
            | ok v =>
              rw [h10] at hp
              simp [dispatchStep, errEntry, okEntry, okEntryPC, h2, h3, h4, h10, hp]
          · 
            by_cases h5 : t0.val = 5
            · cases hp : parse t0.val (t0 :: rest) with
              | error m =>
                rw [h5] at hp
                simp [dispatchStep, errEntry, okEntry, okEntryPC, h2, h3, h4, h10, h5, hp]
              | ok v =>
                rw [h5] at hp
                simp [dispatchStep, errEntry, okEntry, okEntryPC, h2, h3, h4, h10, h5, hp]
            · 
              by_cases h6 : t0.val = 6
              · cases hp : parse t0.val (t0 :: rest) with
                | error m =>
                  rw [h6] at hp
                  simp [dispatchStep, errEntry, okEntry, okEntryPC, h2, h3, h4, h10, h5, h6, hp]
                | ok v =>
                  rw [h6] at hp
                  simp [dispatchStep, errEntry, okEntry, okEntryPC, h2, h3, h4, h10, h5, h6, hp]
              · 
                by_cases h7 : t0.val = 7
                · cases hp : parse t0.val (t0 :: rest) with
                  | error m =>
                    rw [h7] at hp
                    simp [dispatchStep, errEntry, okEntry, okEntryPC, h2, h3, h4, h10, h5, h6, h7, hp]
                  | ok v =>
                    rw [h7] at hp
                    simp [dispatchStep, errEntry, okEntry, okEntryPC, h2, h3, h4, h10, h5, h6, h7, hp]
                · 
                  by_cases h8 : t0.val = 8
                  · cases hp : parse t0.val (t0 :: rest) with
                    | error m =>
                      rw [h8] at hp
                      simp [dispatchStep, errEntry, okEntry, okEntryPC, h2, h3, h4, h10, h5, h6, h7, h8, hp]
                    | ok v =>
                      rw [h8] at hp
                      simp [dispatchStep, errEntry, okEntry, okEntryPC, h2, h3, h4, h10, h5, h6, h7, h8, hp]
                  · 
                    by_cases h9 : t0.val = 9
                    · cases hp : parse t0.val (t0 :: rest) with
                      | error m =>
                        rw [h9] at hp
                        simp [dispatchStep, errEntry, okEntry, okEntryPC, h2, h3, h4, h10, h5, h6, h7, h8, h9, hp]
                      | ok v =>
                        rw [h9] at hp
                        simp [dispatchStep, errEntry, okEntry, okEntryPC, h2, h3, h4, h10, h5, h6, h7, h8, h9, hp]
                    · simp [dispatchStep, errEntry, okEntry, okEntryPC, h2, h3, h4, h10, h5, h6, h7, h8, h9]

/-- The fold characterization, generalized over the accumulator. -/
theorem foldl_dispatch {α : Type} (parse : Nat → Bytes → Except String α)
    (accts : List (Bytes × Bytes)) :
    ∀ init : ProgramData α,
      (accts.foldl (dispatchStep parse) init).parse_errors =
        init.parse_errors ++ accts.filterMap (errEntry parse)
      ∧ (accts.foldl (dispatchStep parse) init).locations =
        init.locations ++ accts.filterMap (okEntry parse 3)
      ∧ (accts.foldl (dispatchStep parse) init).exchanges =
        init.exchanges ++ accts.filterMap (okEntry parse 4)
      ∧ (accts.foldl (dispatchStep parse) init).contributors =
        init.contributors ++ accts.filterMap (okEntry parse 10)
      ∧ (accts.foldl (dispatchStep parse) init).devices =
        init.devices ++ accts.filterMap (okEntry parse 5)
      ∧ (accts.foldl (dispatchStep parse) init).links =
        init.links ++ accts.filterMap (okEntry parse 6)
      ∧ (accts.foldl (dispatchStep parse) init).users =
        init.users ++ accts.filterMap (okEntry parse 7)
      ∧ (accts.foldl (dispatchStep parse) init).multicast_groups =
        init.multicast_groups ++ accts.filterMap (okEntry parse 8)
      ∧ (accts.foldl (dispatchStep parse) init).config =
        ((accts.filterMap (okEntry parse 2)).getLast?).or init.config
      ∧ (accts.foldl (dispatchStep parse) init).program_config =
        ((accts.filterMap (okEntryPC parse)).getLast?).or init.program_config := by
  induction accts with
  | nil => intro init; simp
  | cons x l ih =>
    intro init
    obtain ⟨hperr, hloc, hexch, hcontrib, hdev, hlink, husr, hmg, hcfg, hpc⟩ :=
      ih (dispatchStep parse init x)
    obtain ⟨pperr, ploc, pexch, pcontrib, pdev, plink, pusr, pmg, pcfg, ppc⟩ :=
      dispatchStep_projections parse init x
    rw [List.foldl_cons]
    refine ⟨?_, ?_, ?_, ?_, ?_, ?_, ?_, ?_, ?_, ?_⟩
    · rw [hperr, pperr, List.filterMap_cons]
      cases h : errEntry parse x <;> simp [h]
    · rw [hloc, ploc, List.filterMap_cons]
      cases h : okEntry parse 3 x <;> simp [h]
    · rw [hexch, pexch, List.filterMap_cons]
      cases h : okEntry parse 4 x <;> simp [h]
    · rw [hcontrib, pcontrib, List.filterMap_cons]
      cases h : okEntry parse 10 x <;> simp [h]
    · rw [hdev, pdev, List.filterMap_cons]
      cases h : okEntry parse 5 x <;> simp [h]
    · rw [hlink, plink, List.filterMap_cons]
      cases h : okEntry parse 6 x <;> simp [h]
    · rw [husr, pusr, List.filterMap_cons]
      cases h : okEntry parse 7 x <;> simp [h]
    · rw [hmg, pmg, List.filterMap_cons]
      cases h : okEntry parse 8 x <;> simp [h]
    · rw [hcfg, pcfg, List.filterMap_cons]
      cases h : okEntry parse 2 x with
      | none => simp [h]
      | some v => simp [h, getLast?_cons_or, Option.or_assoc]
    · rw [hpc, ppc, List.filterMap_cons]
      cases h : okEntryPC parse x with
      | none => simp [h]
      | some v => simp [h, getLast?_cons_or, Option.or_assoc]

/-- C7: batch dispatch always completes, and each `(identifier, buffer)`
pair contributes to the result independently of every other pair: the
error list is exactly the pointwise collection of the per-buffer error
entries (one entry, carrying identifier, type tag, buffer length, and
message, exactly when a non-empty buffer with a recognized tag fails to
decode), each typed bucket is exactly the pointwise collection of its
successful decodes in input order, the two single-value slots hold the
last successful decode of their tag, and empty buffers and buffers with
an unrecognized leading tag contribute nothing (in particular no error
entry). -/
theorem spec_C7 {α : Type} (parse : Nat → Bytes → Except String α)
    (accts : List (Bytes × Bytes)) :
    (get_program_data parse accts).parse_errors = accts.filterMap (errEntry parse)
    ∧ (get_program_data parse accts).locations = accts.filterMap (okEntry parse 3)
    ∧ (get_program_data parse accts).exchanges = accts.filterMap (okEntry parse 4)
    ∧ (get_program_data parse accts).contributors = accts.filterMap (okEntry parse 10)
    ∧ (get_program_data parse accts).devices = accts.filterMap (okEntry parse 5)
    ∧ (get_program_data parse accts).links = accts.filterMap (okEntry parse 6)
    ∧ (get_program_data parse accts).users = accts.filterMap (okEntry parse 7)
    ∧ (get_program_data parse accts).multicast_groups =
      accts.filterMap (okEntry parse 8)
    ∧ (get_program_data parse accts).config =
      (accts.filterMap (okEntry parse 2)).getLast?
    ∧ (get_program_data parse accts).program_config =
      (accts.filterMap (okEntryPC parse)).getLast? := by
  obtain ⟨hperr, hloc, hexch, hcontrib, hdev, hlink, husr, hmg, hcfg, hpc⟩ :=
    foldl_dispatch parse accts ({} : ProgramData α)
  unfold get_program_data
  exact ⟨by simpa using hperr, by simpa using hloc, by simpa using hexch,
    by simpa using hcontrib, by simpa using hdev, by simpa using hlink,
    by simpa using husr, by simpa using hmg,
    by simpa [Option.or_none] using hcfg, by simpa [Option.or_none] using hpc⟩

/-! The two independently declared field sequences of the versioned
`Interface` sub-record, one per understood version byte, as the spec
declares them (version byte 0 selects the V1 sequence, version byte 1 the
V2 sequence, which additionally contains `interface_cyoa`,
`interface_dia`, `bandwidth`, `cir`, `mtu`, and `routing_mode`). -/

/-- The declared field sequence for version byte 0 (V1). -/
def interfaceV1Fields (version : Nat) : DecM Interface := do
  let statusRaw ← DefensiveReader.read_u8
  let status ← liftE (intEnum InterfaceStatus.members statusRaw)
  let name ← DefensiveReader.read_string
  let itRaw ← DefensiveReader.read_u8
  let interface_type ← liftE (intEnum InterfaceType.members itRaw)
  let lbRaw ← DefensiveReader.read_u8
  let loopback_type ← liftE (intEnum LoopbackType.members lbRaw)
  let vlan_id ← DefensiveReader.read_u16
  let ip_net ← DefensiveReader.read_network_v4
  let node_segment_idx ← DefensiveReader.read_u16
  let user_tunnel_endpoint ← DefensiveReader.read_bool
  pure { Interface.default with
    version, status, name, interface_type, loopback_type,
    vlan_id, ip_net, node_segment_idx, user_tunnel_endpoint }

/-- The declared field sequence for version byte 1 (V2). -/
def interfaceV2Fields (version : Nat) : DecM Interface := do
  let statusRaw ← DefensiveReader.read_u8
  let status ← liftE (intEnum InterfaceStatus.members statusRaw)
  let name ← DefensiveReader.read_string
  let itRaw ← DefensiveReader.read_u8
  let interface_type ← liftE (intEnum InterfaceType.members itRaw)
  let cyoaRaw ← DefensiveReader.read_u8
  let interface_cyoa ← liftE (intEnum InterfaceCYOA.members cyoaRaw)
  let diaRaw ← DefensiveReader.read_u8
  let interface_dia ← liftE (intEnum InterfaceDIA.members diaRaw)
  let lbRaw ← DefensiveReader.read_u8
  let loopback_type ← liftE (intEnum LoopbackType.members lbRaw)
  let bandwidth ← DefensiveReader.read_u64
  let cir ← DefensiveReader.read_u64
  let mtu ← DefensiveReader.read_u16
  let rmRaw ← DefensiveReader.read_u8
  let routing_mode ← liftE (intEnum RoutingMode.members rmRaw)
  let vlan_id ← DefensiveReader.read_u16
  let ip_net ← DefensiveReader.read_network_v4
  let node_segment_idx ← DefensiveReader.read_u16
  let user_tunnel_endpoint ← DefensiveReader.read_bool
  pure { Interface.default with
    version, status, name, interface_type, interface_cyoa, interface_dia,
    loopback_type, bandwidth, cir, mtu, routing_mode,
    vlan_id, ip_net, node_segment_idx, user_tunnel_endpoint }

/-- Version dispatch over the declared per-version field sequences: read
the version byte; at or above the first not-understood version, stop with
only the version populated; otherwise run exactly the field sequence
declared for that version. -/
def interfaceVersionDispatch : DecM Interface := do
  let version ← DefensiveReader.read_u8
  if version > CURRENT_INTERFACE_VERSION - 1 then
    pure { Interface.default with version := version }
  else if version = 0 then
    interfaceV1Fields version
  else
    interfaceV2Fields version

/-- The defensive u8 read never fails. -/
theorem def_read_u8_ok (s : RState) :
    ∃ v s1, DefensiveReader.read_u8 s = (Except.ok v, s1) := by
  show ∃ v s1, IncrementalReader.try_read_u8 0 s = (Except.ok v, s1)
  rw [try_read_u8_eq]
  by_cases h : s.remaining < 1
  · rw [if_pos h]
    exact ⟨0, s, rfl⟩
  · rw [if_neg h]
    exact ⟨_, _, rfl⟩

/-- A successful run of the V1 sequence sets `version` to its argument and
leaves every V2-only field at its default. -/
theorem interfaceV1Fields_shape (ver : Nat) (s s1 : RState) (rec : Interface)
    (h : interfaceV1Fields ver s = (Except.ok rec, s1)) :
    rec.version = ver ∧ rec.interface_cyoa = 0 ∧ rec.interface_dia = 0
    ∧ rec.bandwidth = 0 ∧ rec.cir = 0 ∧ rec.mtu = 0 ∧ rec.routing_mode = 0 := by
  unfold interfaceV1Fields at h
  obtain ⟨_, _, _, h⟩ := DecM.bind_ok h
  obtain ⟨_, _, _, h⟩ := DecM.bind_ok h
  obtain ⟨_, _, _, h⟩ := DecM.bind_ok h
  obtain ⟨_, _, _, h⟩ := DecM.bind_ok h
  obtain ⟨_, _, _, h⟩ := DecM.bind_ok h
  obtain ⟨_, _, _, h⟩ := DecM.bind_ok h
  obtain ⟨_, _, _, h⟩ := DecM.bind_ok h
  obtain ⟨_, _, _, h⟩ := DecM.bind_ok h
  obtain ⟨_, _, _, h⟩ := DecM.bind_ok h
  obtain ⟨_, _, _, h⟩ := DecM.bind_ok h
  obtain ⟨_, _, _, h⟩ := DecM.bind_ok h
  rw [DecM.pure_apply] at h
  simp only [Prod.mk.injEq, Except.ok.injEq] at h
  obtain ⟨hrec, -⟩ := h
  subst hrec
  exact ⟨rfl, rfl, rfl, rfl, rfl, rfl, rfl⟩

/-- A successful run of the V2 sequence sets `version` to its argument. -/
theorem interfaceV2Fields_version (ver : Nat) (s s1 : RState) (rec : Interface)
    (h : interfaceV2Fields ver s = (Except.ok rec, s1)) : rec.version = ver := by
  unfold interfaceV2Fields at h
  obtain ⟨_, _, _, h⟩ := DecM.bind_ok h
  obtain ⟨_, _, _, h⟩ := DecM.bind_ok h
  obtain ⟨_, _, _, h⟩ := DecM.bind_ok h
  obtain ⟨_, _, _, h⟩ := DecM.bind_ok h
  obtain ⟨_, _, _, h⟩ := DecM.bind_ok h
  obtain ⟨_, _, _, h⟩ := DecM.bind_ok h
  obtain ⟨_, _, _, h⟩ := DecM.bind_ok h
  obtain ⟨_, _, _, h⟩ := DecM.bind_ok h
  obtain ⟨_, _, _, h⟩ := DecM.bind_ok h
  obtain ⟨_, _, _, h⟩ := DecM.bind_ok h
  obtain ⟨_, _, _, h⟩ := DecM.bind_ok h
  obtain ⟨_, _, _, h⟩ := DecM.bind_ok h
  obtain ⟨_, _, _, h⟩ := DecM.bind_ok h
  obtain ⟨_, _, _, h⟩ := DecM.bind_ok h
  obtain ⟨_, _, _, h⟩ := DecM.bind_ok h
  obtain ⟨_, _, _, h⟩ := DecM.bind_ok h
  obtain ⟨_, _, _, h⟩ := DecM.bind_ok h
  obtain ⟨_, _, _, h⟩ := DecM.bind_ok h
  obtain ⟨_, _, _, h⟩ := DecM.bind_ok h
  obtain ⟨_, _, _, h⟩ := DecM.bind_ok h
  rw [DecM.pure_apply] at h
  simp only [Prod.mk.injEq, Except.ok.injEq] at h
  obtain ⟨hrec, -⟩ := h
  subst hrec
  rfl

/-- C8: `Interface.from_reader` reads a 1-byte version first; for a
version byte at or above `CURRENT_INTERFACE_VERSION = 2` it stops and
returns a value with only the version field populated (all other fields at
their defaults) after consuming exactly the version byte; and it is
exactly the dispatch over the two independently declared per-version field
sequences, so a successful decode whose version is 0 leaves the six
V2-only fields (`interface_cyoa`, `interface_dia`, `bandwidth`, `cir`,
`mtu`, `routing_mode`) at their defaults. -/
theorem spec_C8 (s : RState) :
    (∀ v, 2 ≤ v → s.offset < s.data.length → leVal (slice s.data s.offset 1) = v →
      Interface.from_reader s =
        (Except.ok { Interface.default with version := v },
          RState.mk s.data (s.offset + 1)))
    ∧ Interface.from_reader = interfaceVersionDispatch
    ∧ (∀ rec s1, Interface.from_reader s = (Except.ok rec, s1) → rec.version = 0 →
      rec.interface_cyoa = 0 ∧ rec.interface_dia = 0 ∧ rec.bandwidth = 0
      ∧ rec.cir = 0 ∧ rec.mtu = 0 ∧ rec.routing_mode = 0) := by
  have hdisp : Interface.from_reader = interfaceVersionDispatch := rfl
  refine ⟨?_, hdisp, ?_⟩
  · intro v hv hoff hbyte
    have h1 : DefensiveReader.read_u8 s = (Except.ok v, RState.mk s.data (s.offset + 1)) := by
      show IncrementalReader.try_read_u8 0 s = _
      rw [try_read_u8_eq, if_neg (by unfold RState.remaining; omega), hbyte]
    unfold Interface.from_reader
    rw [DecM.bind_ok_apply h1]
    rw [if_pos (show v > CURRENT_INTERFACE_VERSION - 1 by
      (simp only [CURRENT_INTERFACE_VERSION]; omega))]
    rfl
  · intro rec s1 h hver
    rw [hdisp] at h
    unfold interfaceVersionDispatch at h
    obtain ⟨v0, s0, h0⟩ := def_read_u8_ok s
    rw [DecM.bind_ok_apply h0] at h
    by_cases hv : v0 > CURRENT_INTERFACE_VERSION - 1
    · rw [if_pos hv] at h
      rw [DecM.pure_apply] at h
      simp only [Prod.mk.injEq, Except.ok.injEq] at h
      obtain ⟨hrec, -⟩ := h
      subst hrec
      simp only [CURRENT_INTERFACE_VERSION] at hv
      exact absurd hver (by simpa using Nat.ne_of_gt (by omega))
    · rw [if_neg hv] at h
      by_cases h0v : v0 = 0
      · rw [if_pos h0v] at h
        obtain ⟨-, hfields⟩ := interfaceV1Fields_shape v0 s0 s1 rec h
        exact hfields
      · rw [if_neg h0v] at h
        have := interfaceV2Fields_version v0 s0 s1 rec h
        rw [hver] at this
        exact absurd this.symm h0v

/-- Witness for C8: version byte 5 (not yet understood) yields only the
version field after one byte; and a successful version-0 decode (here of
the one-byte buffer `[0]`, whose result is the all-defaults record) leaves
the six V2-only fields at their defaults. -/
theorem spec_C8_witness :
    Interface.from_reader (RState.mk [5] 0) =
      (Except.ok { Interface.default with version := 5 }, RState.mk [5] 1)
    ∧ (Interface.default.interface_cyoa = 0 ∧ Interface.default.interface_dia = 0
      ∧ Interface.default.bandwidth = 0 ∧ Interface.default.cir = 0
      ∧ Interface.default.mtu = 0 ∧ Interface.default.routing_mode = 0) :=
  ⟨(spec_C8 (RState.mk [5] 0)).1 5 (by decide) (by decide) (by decide),
    (spec_C8 (RState.mk [0] 0)).2.2 Interface.default (RState.mk [0] 1)
      (by decide) (by decide)⟩

/-! C1 concerns unknown enum bytes in the tagged-variant decoders.  In the
source, every enum field except the `AccessPass` type tag is built by a
bare `IntEnum` constructor call, which raises `ValueError` on a value
outside the member set; only the type tag of `AccessPass.from_bytes` is
wrapped in `try/except` with a `PREPAID` fallback. -/

/-- Counterexample to C1 as stated: a buffer whose `Location.status` byte
(offset 70) is 3 — outside `LocationStatus = {0, 1, 2}` — makes
`Location.from_bytes` raise `ValueError` instead of succeeding with a
fallback variant. -/
theorem spec_C1_cex :
    Location.from_bytes (List.replicate 70 0 ++ [3]) = Except.error DecErr.valueError := by
  decide

/-- The common tail of `AccessPass.from_bytes` stores the type tag it was
given. -/
theorem AccessPass.decodeTail_tag (at0 : Nat) (ow : Bytes) (bs tg : Nat)
    (assoc : Option Bytes) (tn tk : Bytes) (s s1 : RState) (rec : AccessPass)
    (h : AccessPass.decodeTail at0 ow bs tg assoc tn tk s = (Except.ok rec, s1)) :
    rec.access_pass_type_tag = tg := by
  unfold AccessPass.decodeTail at h
  obtain ⟨_, _, _, h⟩ := DecM.bind_ok h
  obtain ⟨_, _, _, h⟩ := DecM.bind_ok h
  obtain ⟨_, _, _, h⟩ := DecM.bind_ok h
  obtain ⟨_, _, _, h⟩ := DecM.bind_ok h
  obtain ⟨_, _, _, h⟩ := DecM.bind_ok h
  obtain ⟨_, _, _, h⟩ := DecM.bind_ok h
  obtain ⟨_, _, _, h⟩ := DecM.bind_ok h
  obtain ⟨_, _, _, h⟩ := DecM.bind_ok h
  obtain ⟨_, _, _, h⟩ := DecM.bind_ok h
  rw [DecM.pure_apply] at h
  simp only [Prod.mk.injEq, Except.ok.injEq] at h
  obtain ⟨hrec, -⟩ := h
  subst hrec
  rfl

set_option maxRecDepth 100000 in
/-- C1 amended: only the `AccessPass` type-tag field resolves a byte
outside its member set to the fallback `PREPAID` (value 0, the
first/lowest-ordinal member) without raising; every other enum-valued
field raises `ValueError` on such a byte, aborting the decode — shown for
`Location.status` and `Link.link_type` on buffers that are well-formed up
to the enum byte. -/
theorem spec_C1 :
    (∀ v : Byte, v.val ∉ LocationStatus.members →
      Location.from_bytes (List.replicate 70 0 ++ [v]) = Except.error DecErr.valueError)
    ∧ (∀ v : Byte, v.val ∉ LinkLinkType.members →
      Link.from_bytes (List.replicate 114 0 ++ [v]) = Except.error DecErr.valueError)
    ∧ (∀ (data : Bytes) (t : Byte) (rec : AccessPass) (s1 : RState),
      data[34]? = some t → t.val ∉ AccessPassTypeTag.members →
      AccessPass.decode (RState.mk data 0) = (Except.ok rec, s1) →
      rec.access_pass_type_tag = 0) := by
  refine ⟨by decide, by decide, ?_⟩
  intro data t rec s1 hget ht h
  obtain ⟨hlt, hgetE⟩ := List.getElem?_eq_some.mp hget
  have hlen : 35 ≤ data.length := by omega
  have hbyte : slice data 34 1 = [t] := by
    unfold slice
    rw [List.drop_eq_getElem_cons hlt, hgetE]
    rfl
  have e1 : DefensiveReader.read_u8 (RState.mk data 0) =
      (Except.ok (leVal (slice data 0 1)), RState.mk data 1) := by
    show IncrementalReader.try_read_u8 0 _ = _
    rw [try_read_u8_eq, if_neg (by unfold RState.remaining; simp only; omega)]
  have e2 : DefensiveReader.read_pubkey_raw (RState.mk data 1) =
      (Except.ok (slice data 1 32), RState.mk data 33) := by
    show IncrementalReader.try_read_pubkey_raw (List.replicate 32 0) _ = _
    rw [try_read_pubkey_raw_eq, if_neg (by unfold RState.remaining; simp only; omega)]
  have e3 : DefensiveReader.read_u8 (RState.mk data 33) =
      (Except.ok (leVal (slice data 33 1)), RState.mk data 34) := by
    show IncrementalReader.try_read_u8 0 _ = _
    rw [try_read_u8_eq, if_neg (by unfold RState.remaining; simp only; omega)]
  have e4 : DefensiveReader.read_u8 (RState.mk data 34) =
      (Except.ok t.val, RState.mk data 35) := by
    show IncrementalReader.try_read_u8 0 _ = _
    rw [try_read_u8_eq, if_neg (by unfold RState.remaining; simp only; omega), hbyte]
    show (Except.ok (t.val + 256 * 0), _) = _
    rw [Nat.mul_zero, Nat.add_zero]
  have hnums := ht
  simp only [AccessPassTypeTag.members, List.mem_cons, List.not_mem_nil] at hnums
  push_neg at hnums
  obtain ⟨hne0, hne1, hne2, hne3, hne4, hne5⟩ :
      t.val ≠ 0 ∧ t.val ≠ 1 ∧ t.val ≠ 2 ∧ t.val ≠ 3 ∧ t.val ≠ 4 ∧ t.val ≠ 5 := by
    tauto
  have hb1 : ¬(t.val = 1 ∨ t.val = 2 ∨ t.val = 3 ∨ t.val = 4) := by
    push_neg
    exact ⟨hne1, hne2, hne3, hne4⟩
  unfold AccessPass.decode at h
  simp only [DecM.bind_ok_apply e1, DecM.bind_ok_apply e2, DecM.bind_ok_apply e3,
    DecM.bind_ok_apply e4] at h
  rw [if_neg ht, if_neg hb1, if_neg hne5] at h
  exact AccessPass.decodeTail_tag _ _ _ _ _ _ _ _ _ _ h

/-- Witness for the amended C1: `Location.status` byte 7 and
`Link.link_type` byte 2 abort their decodes, while an `AccessPass` buffer
with unknown tag byte 9 decodes successfully with the `PREPAID` fallback
(the 35-byte buffer below decodes to the all-defaults record, whose tag
field is 0). -/
theorem spec_C1_witness :
    Location.from_bytes (List.replicate 70 0 ++ [7]) = Except.error DecErr.valueError
    ∧ Link.from_bytes (List.replicate 114 0 ++ [2]) = Except.error DecErr.valueError
    ∧ ({} : AccessPass).access_pass_type_tag = 0 :=
  ⟨spec_C1.1 7 (by decide), spec_C1.2.1 2 (by decide),
    spec_C1.2.2 (List.replicate 34 0 ++ [9]) 9 {}
      (RState.mk (List.replicate 34 0 ++ [9]) 35)
      (by decide) (by decide) (by decide)⟩

set_option maxRecDepth 100000 in
/-- Witness for C6: for each record type, a minimal valid buffer (8-byte
discriminator plus an all-zero body of exactly `STRUCT_SIZE` bytes)
decodes identically with and without a trailing byte appended. -/
theorem spec_C6_witness :
    Journal.from_bytes ((List.replicate 8 0 ++ List.replicate 64 0) ++ [1])
        (List.replicate 8 0) =
      Journal.from_bytes (List.replicate 8 0 ++ List.replicate 64 0) (List.replicate 8 0)
    ∧ ProgramConfigR.from_bytes ((List.replicate 8 0 ++ List.replicate 600 0) ++ [1])
        (List.replicate 8 0) =
      ProgramConfigR.from_bytes (List.replicate 8 0 ++ List.replicate 600 0)
        (List.replicate 8 0)
    ∧ Distribution.from_bytes ((List.replicate 8 0 ++ List.replicate 448 0) ++ [1])
        (List.replicate 8 0) =
      Distribution.from_bytes (List.replicate 8 0 ++ List.replicate 448 0)
        (List.replicate 8 0)
    ∧ SolanaValidatorDeposit.from_bytes
        ((List.replicate 8 0 ++ List.replicate 96 0) ++ [1]) (List.replicate 8 0) =
      SolanaValidatorDeposit.from_bytes (List.replicate 8 0 ++ List.replicate 96 0)
        (List.replicate 8 0)
    ∧ ContributorRewards.from_bytes
        ((List.replicate 8 0 ++ List.replicate 600 0) ++ [1]) (List.replicate 8 0) =
      ContributorRewards.from_bytes (List.replicate 8 0 ++ List.replicate 600 0)
        (List.replicate 8 0) :=
  ⟨(spec_C6 _ _ _).1 (by decide) (by decide),
    (spec_C6 _ _ _).2.1 (by decide) (by decide),
    (spec_C6 _ _ _).2.2.1 (by decide) (by decide),
    (spec_C6 _ _ _).2.2.2.1 (by decide) (by decide),
    (spec_C6 _ _ _).2.2.2.2 (by decide) (by decide)⟩

/-- C5 evaluated at the failing input: the 16 bytes `01 00 .. 00` (the
Borsh little-endian encoding of the value 1) decode to 1 through
`IncrementalReader.read_u128` (low word first, `low | (high << 64)`), but
the batch-path `Uint128` schema binds the same first 8 bytes to its `high`
field, parsing the field as `high = 1, low = 0`; 16 bytes of `0xFF` decode
to `2^128 - 1` through the incremental reader. -/
theorem spec_C5 :
    IncrementalReader.read_u128 (RState.mk (1 :: List.replicate 15 0) 0) =
      (Except.ok 1, RState.mk (1 :: List.replicate 15 0) 16)
    ∧ Uint128.parse (1 :: List.replicate 15 0) 0 = (Uint128.mk 1 0, 16)
    ∧ IncrementalReader.read_u128 (RState.mk (List.replicate 16 255) 0) =
      (Except.ok (2 ^ 128 - 1), RState.mk (List.replicate 16 255) 16) :=
  ⟨by decide, by decide, by decide⟩

/-- C10: in the lenient batch-path schemas, a string or fixed-element
vector whose u32 length/count prefix declares more bytes than remain in
the buffer parses to the empty value (the parse functions are total, so no
error is ever raised): the string consumes the remainder and yields the
empty string, the vector yields the empty list with the position left
after the prefix. -/
theorem spec_C10 (b : Bytes) (pos esz : Nat) :
    (0 < leVal (padRead b pos 4) →
      b.length - posAfter b pos 4 < leVal (padRead b pos 4) →
      SafeBorshString.parse b pos = ([], b.length))
    ∧ (0 < leVal (padRead b pos 4) →
      b.length - posAfter b pos 4 < leVal (padRead b pos 4) * esz →
      SafeFixedVec.parse b esz pos = ([], posAfter b pos 4)) := by
  constructor
  · intro hn hover
    unfold SafeBorshString.parse
    simp only
    rw [if_neg (by omega), if_pos (by omega)]
  · intro hn hover
    unfold SafeFixedVec.parse
    simp only
    rw [if_neg (by omega), if_pos (by omega)]

/-- Witness for C10: the buffer `[10, 0, 0, 0]` declares a 10-byte body
(or 10 32-byte elements) with nothing remaining; both parses return the
empty value. -/
theorem spec_C10_witness :
    SafeBorshString.parse [10, 0, 0, 0] 0 = ([], 4)
    ∧ SafeFixedVec.parse [10, 0, 0, 0] 32 0 = ([], 4) :=
  ⟨(spec_C10 [10, 0, 0, 0] 0 32).1 (by decide) (by decide),
    (spec_C10 [10, 0, 0, 0] 0 32).2 (by decide) (by decide)⟩

end DZ
